import Mathlib

/-!
# Verification of the ava-langgraphjs classification-and-scoring pipeline

Shallow embedding of the three-lens event classifier
(`three_universe_processor`), the perspective synthesizer, the narrative
ledger operations (`unified_state_bridge.ts`) and the coherence-scoring
engine (`coherence_engine.ts`), together with proofs of the specification
claims about them.

Modelling conventions:
* JS `number` values are embedded as `ℚ` (all arithmetic in the pipeline is
  exact decimal arithmetic on small fractions; no rounding behaviour of
  binary floats is relied on by the source).
* JS strings are Lean `String`s; `a.includes(b)` is `occursIn b a`
  (substring search), `toLowerCase` is ASCII lowering `strLower`.
* `Math.round x` is `⌊x + 1/2⌋` (JS rounds half-way cases towards +∞).
* Mutation of the shared state object is embedded as explicit state
  passing: every mutating operation takes the state and returns the
  updated state; `new Date().toISOString()` timestamps are threaded as an
  explicit `now : String` argument.
-/

namespace AvaNI

/-- JS `Math.min` on rationals (kernel-evaluable). -/
def jsMin (a b : ℚ) : ℚ := if a ≤ b then a else b

/-- JS `Math.max` on rationals (kernel-evaluable). -/
def jsMax (a b : ℚ) : ℚ := if a ≤ b then b else a

theorem jsMin_eq (a b : ℚ) : jsMin a b = min a b := by
  unfold jsMin
  split
  · exact (min_eq_left (by assumption)).symm
  · rename_i h
    push_neg at h
    exact (min_eq_right h.le).symm

theorem jsMax_eq (a b : ℚ) : jsMax a b = max a b := by
  unfold jsMax
  split
  · exact (max_eq_right (by assumption)).symm
  · rename_i h
    push_neg at h
    exact (max_eq_left h.le).symm

/-- `Math.max(0, Math.min(1, q))`. -/
def clamp01 (q : ℚ) : ℚ := jsMax 0 (jsMin 1 q)

/-- `Math.max(0.0, Math.min(100.0, q))`. -/
def clamp100 (q : ℚ) : ℚ := jsMax 0 (jsMin 100 q)

theorem clamp01_eq (q : ℚ) : clamp01 q = max 0 (min 1 q) := by
  rw [clamp01, jsMax_eq, jsMin_eq]

theorem clamp100_eq (q : ℚ) : clamp100 q = max 0 (min 100 q) := by
  rw [clamp100, jsMax_eq, jsMin_eq]

/-- JS `Math.round`: half-way cases go towards +∞. -/
def jsRound (q : ℚ) : ℤ := Rat.floor (q + 1/2)

theorem jsRound_eq (q : ℚ) : jsRound q = ⌊q + 1/2⌋ := by
  rw [jsRound, Rat.floor_def' (q + 1/2), Rat.floor_def]

/-- `Math.round(q * 100) / 100`: round to two decimal places. -/
def jsRound2 (q : ℚ) : ℚ := (jsRound (q * 100) : ℚ) / 100

theorem clamp01_nonneg (q : ℚ) : 0 ≤ clamp01 q := by
  rw [clamp01_eq]
  exact le_max_left 0 _

theorem clamp01_le_one (q : ℚ) : clamp01 q ≤ 1 := by
  rw [clamp01_eq]
  rcases le_total 0 (min 1 q) with h | h
  · rw [max_eq_right h]; exact min_le_left 1 q
  · rw [max_eq_left h]; norm_num

theorem clamp100_nonneg (q : ℚ) : 0 ≤ clamp100 q := by
  rw [clamp100_eq]
  exact le_max_left 0 _

theorem clamp100_le (q : ℚ) : clamp100 q ≤ 100 := by
  rw [clamp100_eq]
  rcases le_total 0 (min 100 q) with h | h
  · rw [max_eq_right h]; exact min_le_left 100 q
  · rw [max_eq_left h]; norm_num

/-- Rounding to two decimals keeps values of `[0, 1]` inside `[0, 1]`. -/
theorem jsRound2_mem_unit {q : ℚ} (h0 : 0 ≤ q) (h1 : q ≤ 1) :
    0 ≤ jsRound2 q ∧ jsRound2 q ≤ 1 := by
  unfold jsRound2
  rw [jsRound_eq]
  constructor
  · apply div_nonneg _ (by norm_num)
    have : (0 : ℤ) ≤ ⌊q * 100 + 1/2⌋ := by
      apply Int.le_floor.mpr
      push_cast
      nlinarith
    exact_mod_cast this
  · rw [div_le_one (by norm_num)]
    have h2 : ⌊q * 100 + 1/2⌋ < (101 : ℤ) := by
      apply Int.floor_lt.mpr
      push_cast
      nlinarith
    have : ⌊q * 100 + 1/2⌋ ≤ (100 : ℤ) := by omega
    exact_mod_cast this

/-- ASCII lower-casing of one character (model of JS `toLowerCase`; all
strings compared by the pipeline are ASCII). -/
def charLower (c : Char) : Char :=
  if 'A' ≤ c ∧ c ≤ 'Z' then Char.ofNat (c.toNat + 32) else c

/-- ASCII lower-casing of a string. -/
def strLower (s : String) : String := String.mk (s.toList.map charLower)

/-- Does the character list `n` occur at the start of `h`? -/
def headSeg : List Char → List Char → Bool
  | [], _ => true
  | _ :: _, [] => false
  | a :: n, b :: h => a == b && headSeg n h

/-- Does the character list `n` occur contiguously anywhere inside `h`? -/
def occursInL (n : List Char) : List Char → Bool
  | [] => headSeg n []
  | b :: h => headSeg n (b :: h) || occursInL n h

/-- JS `hay.includes(needle)`. -/
def occursIn (needle hay : String) : Bool := occursInL needle.toList hay.toList

theorem headSeg_iff (n h : List Char) :
    headSeg n h = true ↔ ∃ t, h = n ++ t := by
  induction n generalizing h with
  | nil => simp [headSeg]
  | cons a n ih =>
    cases h with
    | nil => simp [headSeg]
    | cons b h =>
      simp only [headSeg, Bool.and_eq_true, beq_iff_eq, ih]
      constructor
      · rintro ⟨rfl, t, rfl⟩; exact ⟨t, rfl⟩
      · rintro ⟨t, ht⟩
        rw [List.cons_append] at ht
        obtain ⟨h1, h2⟩ := List.cons.inj ht
        exact ⟨h1.symm, t, h2⟩

theorem occursInL_iff (n h : List Char) :
    occursInL n h = true ↔ ∃ s t, h = s ++ n ++ t := by
  induction h with
  | nil =>
    rw [occursInL, headSeg_iff]
    constructor
    · rintro ⟨t, ht⟩; exact ⟨[], t, by simpa using ht⟩
    · rintro ⟨s, t, ht⟩
      have hs : s = [] := by
        cases s with
        | nil => rfl
        | cons a s => simp at ht
      subst hs
      exact ⟨t, by simpa using ht⟩
  | cons b h ih =>
    rw [occursInL]
    simp only [Bool.or_eq_true, ih, headSeg_iff]
    constructor
    · rintro (⟨t, ht⟩ | ⟨s, t, rfl⟩)
      · exact ⟨[], t, by simpa using ht⟩
      · exact ⟨b :: s, t, by simp⟩
    · rintro ⟨s, t, ht⟩
      cases s with
      | nil => exact Or.inl ⟨t, by simpa using ht⟩
      | cons c s =>
        rw [List.cons_append, List.cons_append] at ht
        obtain ⟨_, h2⟩ := List.cons.inj ht
        exact Or.inr ⟨s, t, h2⟩

theorem occursIn_iff (n h : String) :
    occursIn n h = true ↔ ∃ s t, h.toList = s ++ n.toList ++ t :=
  occursInL_iff n.toList h.toList

/-- If the last character of `n` does not occur in `t`, an occurrence of
`n` inside `p ++ t` must lie entirely inside `p`. -/
theorem occursInL_append_right {n p t : List Char} {c : Char}
    (hlast : n.getLast? = some c) (hc : c ∉ t)
    (h : occursInL n (p ++ t) = true) : occursInL n p = true := by
  rw [occursInL_iff] at h ⊢
  obtain ⟨s, u, hsu⟩ := h
  have hne : n ≠ [] := by
    intro he
    rw [he] at hlast
    simp at hlast
  have hg : n.getLast hne = c := by
    have := List.getLast?_eq_getLast n hne
    rw [this] at hlast
    exact Option.some.inj hlast
  have hn : n.dropLast ++ [c] = n := by
    rw [← hg]
    exact List.dropLast_append_getLast hne
  have hsu' : p ++ t = (s ++ n.dropLast) ++ (c :: u) := by
    rw [hsu, ← hn]
    simp [List.append_assoc]
  rcases List.append_eq_append_iff.mp hsu' with ⟨a', _, ha2⟩ | ⟨c', hc1, hc2⟩
  · -- the occurrence would end inside `t`, which cannot contain `c`
    exfalso
    apply hc
    rw [ha2]
    exact List.mem_append_right _ (List.mem_cons_self c u)
  · cases c' with
    | nil =>
      exfalso
      apply hc
      rw [List.nil_append] at hc2
      rw [← hc2]
      exact List.mem_cons_self c u
    | cons x c'' =>
      rw [List.cons_append] at hc2
      obtain ⟨hx, hu⟩ := List.cons.inj hc2
      refine ⟨s, c'', ?_⟩
      rw [hc1, ← hx, ← hn]
      simp [List.append_assoc]

/-- Fuel-driven digit rendering (structural recursion, so concrete
renderings reduce in the kernel). -/
def natToCharsFuel : ℕ → ℕ → List Char
  | 0, _ => []
  | fuel + 1, n =>
    if n < 10 then [Char.ofNat (48 + n)]
    else natToCharsFuel fuel (n / 10) ++ [Char.ofNat (48 + n % 10)]

/-- Decimal rendering of a natural number (JS template-string `${n}`). -/
def natToChars (n : ℕ) : List Char := natToCharsFuel (n + 1) n

theorem natToCharsFuel_irrel :
    ∀ {n f1 f2 : ℕ}, n < f1 → n < f2 → natToCharsFuel f1 n = natToCharsFuel f2 n := by
  intro n
  induction n using Nat.strong_induction_on with
  | _ n ih =>
    intro f1 f2 h1 h2
    cases f1 with
    | zero => omega
    | succ f1 =>
      cases f2 with
      | zero => omega
      | succ f2 =>
        simp only [natToCharsFuel]
        by_cases h : n < 10
        · simp [h]
        · simp only [if_neg h]
          congr 1
          have hlt : n / 10 < n := Nat.div_lt_self (by omega) (by omega)
          exact ih (n / 10) hlt (by omega) (by omega)

/-- Decimal rendering of an integer (JS template-string `${i}`). -/
def intToChars (i : ℤ) : List Char :=
  if i < 0 then '-' :: natToChars i.natAbs else natToChars i.natAbs

/-- Rendering of a natural as a `String`. -/
def natStr (n : ℕ) : String := String.mk (natToChars n)

def digitChars : List Char := ['0', '1', '2', '3', '4', '5', '6', '7', '8', '9']

theorem natToChars_of_lt {n : ℕ} (h : n < 10) :
    natToChars n = [Char.ofNat (48 + n)] := by
  simp [natToChars, natToCharsFuel, h]

theorem natToChars_of_ge {n : ℕ} (h : ¬n < 10) :
    natToChars n = natToChars (n / 10) ++ [Char.ofNat (48 + n % 10)] := by
  show natToCharsFuel (n + 1) n = _
  simp only [natToCharsFuel, if_neg h]
  congr 1
  have hlt : n / 10 < n := Nat.div_lt_self (by omega) (by omega)
  exact natToCharsFuel_irrel (by omega) (by omega)

theorem natToChars_chars (n : ℕ) : ∀ c ∈ natToChars n, c ∈ digitChars := by
  induction n using Nat.strong_induction_on with
  | _ n ih =>
    by_cases h : n < 10
    · rw [natToChars_of_lt h]
      intro c hcm
      rw [List.mem_singleton] at hcm
      subst hcm
      interval_cases n <;> decide
    · rw [natToChars_of_ge h]
      intro c hcm
      rcases List.mem_append.mp hcm with h1 | h2
      · exact ih (n / 10) (Nat.div_lt_self (by omega) (by omega)) c h1
      · rw [List.mem_singleton] at h2
        subst h2
        have hm : n % 10 < 10 := Nat.mod_lt _ (by omega)
        set m := n % 10 with hmdef
        clear_value m
        interval_cases m <;> decide

theorem natToChars_ne_nil (n : ℕ) : natToChars n ≠ [] := by
  by_cases h : n < 10
  · rw [natToChars_of_lt h]
    simp
  · rw [natToChars_of_ge h]
    simp

theorem digitCharOfNat_inj {d e : ℕ} (hd : d < 10) (he : e < 10)
    (h : Char.ofNat (48 + d) = Char.ofNat (48 + e)) : d = e := by
  interval_cases d <;> interval_cases e <;> revert h <;> decide

theorem natToChars_inj : ∀ {a b : ℕ}, natToChars a = natToChars b → a = b := by
  intro a
  induction a using Nat.strong_induction_on with
  | _ a ih =>
    intro b h
    by_cases ha : a < 10 <;> by_cases hb : b < 10
    · rw [natToChars_of_lt ha, natToChars_of_lt hb, List.cons.injEq] at h
      exact digitCharOfNat_inj ha hb h.1
    · exfalso
      rw [natToChars_of_lt ha, natToChars_of_ge hb] at h
      have hlen := congrArg List.length h
      simp at hlen
      exact natToChars_ne_nil (b / 10) hlen
    · exfalso
      rw [natToChars_of_ge ha, natToChars_of_lt hb] at h
      have hlen := congrArg List.length h
      simp at hlen
      exact natToChars_ne_nil (a / 10) hlen
    · rw [natToChars_of_ge ha, natToChars_of_ge hb] at h
      have hinj := List.append_inj' h (by simp)
      have h1 : a / 10 = b / 10 :=
        ih (a / 10) (Nat.div_lt_self (by omega) (by omega)) hinj.1
      have h2 : a % 10 = b % 10 := by
        have h3 := hinj.2
        rw [List.cons.injEq] at h3
        exact digitCharOfNat_inj (Nat.mod_lt _ (by omega)) (Nat.mod_lt _ (by omega)) h3.1
      omega

theorem natStr_inj {a b : ℕ} (h : natStr a = natStr b) : a = b := by
  apply natToChars_inj
  have := congrArg String.toList h
  simpa [natStr] using this

/-! ## Three-universe lens classifiers (`three_universe_processor`)

Each lens scores the lower-cased event content against its keyword table,
keeps the categories with at least one hit, picks the arg-max by the JS
`reduce((a, b) => a[1] > b[1] ? a : b)` rule (first maximum wins), and maps
the winning score to a confidence.  The classifiers are functions of the
content extracted from the event (and, for the Ceremony lens, of the
contributor list extracted from the event envelope). -/

/-- `engineerIntentKeywords()` from the source. -/
def engineerIntentKeywords : List (String × List String) :=
  [("feature_implementation", ["feat:", "feature", "add", "implement", "create", "new"]),
   ("bug_fix", ["fix:", "bug", "hotfix", "patch", "resolve", "correct"]),
   ("refactor", ["refactor", "refact:", "cleanup", "restructure", "reorganize"]),
   ("documentation", ["docs:", "doc:", "documentation", "readme", "comment"]),
   ("testing", ["test:", "tests:", "testing", "spec", "coverage"]),
   ("dependency", ["deps:", "dependency", "upgrade", "update", "bump"]),
   ("configuration", ["config:", "configure", "settings", "env"]),
   ("performance", ["perf:", "performance", "optimize", "speed", "cache"]),
   ("security", ["security", "sec:", "vulnerability", "auth", "permission"]),
   ("ci_cd", ["ci:", "cd:", "pipeline", "workflow", "build"])]

/-- `ceremonyIntentKeywords()` from the source. -/
def ceremonyIntentKeywords : List (String × List String) :=
  [("co_creation", ["we", "together", "team", "pair", "collaborate", "co-author"]),
   ("gratitude_expression", ["thanks", "thank you", "grateful", "appreciate", "credit"]),
   ("witnessing", ["witness", "observe", "acknowledge", "see", "recognize"]),
   ("sacred_pause", ["pause", "reflect", "consider", "contemplate", "breathe"]),
   ("relationship_building", ["connect", "relationship", "community", "support"]),
   ("healing", ["heal", "restore", "repair", "reconcile", "mend"]),
   ("celebration", ["celebrate", "milestone", "achievement", "success", "complete"]),
   ("offering", ["offer", "gift", "contribute", "share", "give"])]

/-- `storyEngineIntentKeywords()` from the source. -/
def storyEngineIntentKeywords : List (String × List String) :=
  [("inciting_incident", ["init", "start", "begin", "new", "first", "introduce"]),
   ("rising_action", ["add", "implement", "build", "develop", "progress", "continue"]),
   ("turning_point", ["feat:", "major", "significant", "pivot", "change", "transform"]),
   ("complication", ["issue", "problem", "bug", "error", "conflict", "challenge"]),
   ("crisis", ["critical", "urgent", "breaking", "emergency", "blocker"]),
   ("climax", ["complete", "finish", "final", "release", "launch", "deploy"]),
   ("resolution", ["fix", "resolve", "close", "merge", "done"]),
   ("denouement", ["cleanup", "refactor", "optimize", "polish", "improve"])]

/-- Shared keyword-scoring loop: for every category,
`score = (#terms found in the content) / (#terms defined)`; only categories
with at least one hit are retained, in table order.  (The Engineer lens
lower-cases its terms before matching; its table is already lower-case, so
the operation is the identity there.) -/
def keywordScores (table : List (String × List String)) (contentLower : String) :
    List (String × ℚ) :=
  table.filterMap fun p =>
    let hits := (p.2.filter fun term => occursIn term contentLower).length
    if hits > 0 then some (p.1, (hits : ℚ) / (p.2.length : ℚ)) else none

/-- JS `Object.entries(scores).reduce((a, b) => a[1] > b[1] ? a : b)`:
the first entry with the maximal score wins; `none` on the empty record. -/
def pickBest : List (String × ℚ) → Option (String × ℚ)
  | [] => none
  | p :: rest => some (rest.foldl (fun a b => if b.2 > a.2 then b else a) p)

/-- Ceremony special case: more than one contributor adds a flat `+0.5` to
the `co_creation` score (JS object update keeps the key's position if it
exists and appends the key otherwise). -/
def bumpCoCreation (scores : List (String × ℚ)) : List (String × ℚ) :=
  if scores.any (fun p => p.1 == "co_creation") then
    scores.map fun p => if p.1 == "co_creation" then (p.1, p.2 + 1/2) else p
  else scores ++ [("co_creation", 1/2)]

/-- `analyzeEngineerPerspective`: winning intent and confidence
`min(0.95, 0.6 + score*0.4)`, falling back to `("maintenance", 0.5)`. -/
def analyzeEngineerPerspective (content : String) : String × ℚ :=
  match pickBest (keywordScores engineerIntentKeywords (strLower content)) with
  | some (intent, s) => (intent, jsMin (19/20 : ℚ) (3/5 + s * (2/5)))
  | none => ("maintenance", 1/2)

/-- `analyzeCeremonyPerspective`: winning intent and confidence
`min(0.95, 0.5 + score*0.4)`, falling back to
`("individual_offering", 0.6)`. -/
def analyzeCeremonyPerspective (content : String) (contributors : List String) :
    String × ℚ :=
  let scores := keywordScores ceremonyIntentKeywords (strLower content)
  let scores := if contributors.length > 1 then bumpCoCreation scores else scores
  match pickBest scores with
  | some (intent, s) => (intent, jsMin (19/20 : ℚ) (1/2 + s * (2/5)))
  | none => ("individual_offering", 3/5)

/-- `analyzeStoryEnginePerspective`: winning intent and confidence
`min(0.95, 0.55 + score*0.4)`, falling back to `("rising_action", 0.5)`. -/
def analyzeStoryEnginePerspective (content : String) : String × ℚ :=
  match pickBest (keywordScores storyEngineIntentKeywords (strLower content)) with
  | some (intent, s) => (intent, jsMin (19/20 : ℚ) (11/20 + s * (2/5)))
  | none => ("rising_action", 1/2)

theorem foldl_pick_mem (p : String × ℚ) (rest : List (String × ℚ)) :
    rest.foldl (fun a b => if b.2 > a.2 then b else a) p ∈ p :: rest := by
  induction rest generalizing p with
  | nil => simp
  | cons q rest ih =>
    rw [List.foldl_cons]
    rcases List.mem_cons.mp (ih (if q.2 > p.2 then q else p)) with h | h
    · rw [h]
      split
      · exact List.mem_cons_of_mem p (List.mem_cons_self q rest)
      · exact List.mem_cons_self p (q :: rest)
    · exact List.mem_cons_of_mem p (List.mem_cons_of_mem q h)

theorem pickBest_mem {l : List (String × ℚ)} {p : String × ℚ}
    (h : pickBest l = some p) : p ∈ l := by
  cases l with
  | nil => simp [pickBest] at h
  | cons q rest =>
    rw [pickBest, Option.some.injEq] at h
    rw [← h]
    exact foldl_pick_mem q rest

theorem keywordScores_nonneg {t : List (String × List String)} {c : String} :
    ∀ p ∈ keywordScores t c, 0 ≤ p.2 := by
  intro p hp
  rw [keywordScores, List.mem_filterMap] at hp
  obtain ⟨a, _, ha⟩ := hp
  simp only at ha
  split at ha
  · rw [Option.some.injEq] at ha
    rw [← ha]
    exact div_nonneg (by positivity) (by positivity)
  · exact absurd ha (by simp)

theorem bumpCoCreation_nonneg {l : List (String × ℚ)} (hl : ∀ p ∈ l, 0 ≤ p.2) :
    ∀ p ∈ bumpCoCreation l, 0 ≤ p.2 := by
  intro p hp
  rw [bumpCoCreation] at hp
  split at hp
  · rw [List.mem_map] at hp
    obtain ⟨a, ha, hap⟩ := hp
    have := hl a ha
    split at hap <;> rw [← hap]
    · simp only
      linarith
    · exact this
  · rcases List.mem_append.mp hp with h | h
    · exact hl p h
    · rw [List.mem_singleton] at h
      rw [h]
      norm_num

theorem lensConf_bounds {s base : ℚ} (hs : 0 ≤ s) (hb : 1/2 ≤ base) :
    1/2 ≤ jsMin (19/20 : ℚ) (base + s * (2/5)) ∧
      jsMin (19/20 : ℚ) (base + s * (2/5)) ≤ 19/20 := by
  rw [jsMin_eq]
  exact ⟨le_min (by norm_num) (by nlinarith), min_le_left _ _⟩

theorem analyzeEngineer_conf_bounds (content : String) :
    1/2 ≤ (analyzeEngineerPerspective content).2 ∧
      (analyzeEngineerPerspective content).2 ≤ 19/20 := by
  cases hp : pickBest (keywordScores engineerIntentKeywords (strLower content)) with
  | none => rw [analyzeEngineerPerspective, hp]; norm_num
  | some p =>
    obtain ⟨i, s⟩ := p
    rw [analyzeEngineerPerspective, hp]
    exact lensConf_bounds (keywordScores_nonneg (i, s) (pickBest_mem hp)) (by norm_num)

theorem analyzeCeremony_conf_bounds (content : String) (contributors : List String) :
    1/2 ≤ (analyzeCeremonyPerspective content contributors).2 ∧
      (analyzeCeremonyPerspective content contributors).2 ≤ 19/20 := by
  have hnn : ∀ p ∈ (if contributors.length > 1 then
      bumpCoCreation (keywordScores ceremonyIntentKeywords (strLower content))
      else keywordScores ceremonyIntentKeywords (strLower content)), 0 ≤ p.2 := by
    split
    · exact bumpCoCreation_nonneg keywordScores_nonneg
    · exact keywordScores_nonneg
  cases hp : pickBest (if contributors.length > 1 then
      bumpCoCreation (keywordScores ceremonyIntentKeywords (strLower content))
      else keywordScores ceremonyIntentKeywords (strLower content)) with
  | none => rw [analyzeCeremonyPerspective, hp]; norm_num
  | some p =>
    obtain ⟨i, s⟩ := p
    rw [analyzeCeremonyPerspective, hp]
    exact lensConf_bounds (hnn (i, s) (pickBest_mem hp)) (by norm_num)

theorem analyzeStoryEngine_conf_bounds (content : String) :
    1/2 ≤ (analyzeStoryEnginePerspective content).2 ∧
      (analyzeStoryEnginePerspective content).2 ≤ 19/20 := by
  cases hp : pickBest (keywordScores storyEngineIntentKeywords (strLower content)) with
  | none => rw [analyzeStoryEnginePerspective, hp]; norm_num
  | some p =>
    obtain ⟨i, s⟩ := p
    rw [analyzeStoryEnginePerspective, hp]
    exact lensConf_bounds (keywordScores_nonneg (i, s) (pickBest_mem hp)) (by norm_num)

theorem ceremonyScores_we :
    keywordScores ceremonyIntentKeywords (strLower "we") = [("co_creation", (1:ℚ)/6)] := by
  have h1 : (List.filter (fun term => occursIn term (strLower "we"))
      ["we", "together", "team", "pair", "collaborate", "co-author"]).length = 1 := by decide
  have h2 : (List.filter (fun term => occursIn term (strLower "we"))
      ["thanks", "thank you", "grateful", "appreciate", "credit"]).length = 0 := by decide
  have h3 : (List.filter (fun term => occursIn term (strLower "we"))
      ["witness", "observe", "acknowledge", "see", "recognize"]).length = 0 := by decide
  have h4 : (List.filter (fun term => occursIn term (strLower "we"))
      ["pause", "reflect", "consider", "contemplate", "breathe"]).length = 0 := by decide
  have h5 : (List.filter (fun term => occursIn term (strLower "we"))
      ["connect", "relationship", "community", "support"]).length = 0 := by decide
  have h6 : (List.filter (fun term => occursIn term (strLower "we"))
      ["heal", "restore", "repair", "reconcile", "mend"]).length = 0 := by decide
  have h7 : (List.filter (fun term => occursIn term (strLower "we"))
      ["celebrate", "milestone", "achievement", "success", "complete"]).length = 0 := by decide
  have h8 : (List.filter (fun term => occursIn term (strLower "we"))
      ["offer", "gift", "contribute", "share", "give"]).length = 0 := by decide
  simp only [keywordScores, ceremonyIntentKeywords, List.filterMap_cons, List.filterMap_nil,
    h1, h2, h3, h4, h5, h6, h7, h8]
  norm_num

/-! ## Perspective synthesizer (`synthesizePerspectives`)

A `UniversePerspective`'s `context` is a JS string-keyed map; the
synthesizer reads only the keys below, and a key that is absent reads as
`undefined`, which behaves as the falsy default recorded here.  We embed a
perspective as the fields the synthesizer consumes. -/

inductive Universe
  | engineer
  | ceremony
  | story_engine
deriving DecidableEq, Repr

structure SynthPerspective where
  intent : String
  confidence : ℚ
  witnessingNeeded : Bool := false
  isCollaborative : Bool := false
  dramaticTension : ℚ := 0
  narrativeFunction : String := ""
  estimatedComplexity : String := ""
  senderEnergy : String := ""
deriving DecidableEq

/-- `determineLeadUniverse`: the fixed precedence chain, falling back to the
JS `reduce((a, b) => a[0].confidence > b[0].confidence ? a : b)` over
`[engineer, ceremony, storyEngine]`. -/
def determineLeadUniverse (engineer ceremony storyEngine : SynthPerspective) : Universe :=
  if ceremony.witnessingNeeded then Universe.ceremony
  else if ceremony.isCollaborative then Universe.ceremony
  else if storyEngine.dramaticTension > 4/5 then Universe.story_engine
  else if storyEngine.narrativeFunction = "climax" ∨
      storyEngine.narrativeFunction = "turning_point" then Universe.story_engine
  else if engineer.estimatedComplexity = "high" then Universe.engineer
  else if engineer.intent = "security" ∨ engineer.intent = "bug_fix" then Universe.engineer
  else
    ([(ceremony, Universe.ceremony), (storyEngine, Universe.story_engine)].foldl
      (fun a b => if a.1.confidence > b.1.confidence then a else b)
      (engineer, Universe.engineer)).2

/-- `calculateCoherence` (synthesizer): average confidence, `+0.1` when at
least two urgency signals agree, minus `0.2 ×` the confidence spread,
clamped to `[0,1]` and rounded to two decimals. -/
def calculateCoherence (engineer ceremony storyEngine : SynthPerspective) : ℚ :=
  let avgConfidence := (engineer.confidence + ceremony.confidence + storyEngine.confidence) / 3
  let engineerUrgent : Bool := ["security", "bug_fix", "performance"].contains engineer.intent
  let ceremonyUrgent : Bool := ceremony.senderEnergy == "urgent_flow"
  let storyUrgent : Bool := decide (storyEngine.dramaticTension > 7/10)
  let bonus : ℚ :=
    if 2 ≤ (List.filter id [engineerUrgent, ceremonyUrgent, storyUrgent]).length then 1/10 else 0
  let confidenceSpread :=
    jsMax engineer.confidence (jsMax ceremony.confidence storyEngine.confidence) -
      jsMin engineer.confidence (jsMin ceremony.confidence storyEngine.confidence)
  let penalty := confidenceSpread * (1/5)
  jsRound2 (clamp01 (avgConfidence + bonus - penalty))

structure SynthResult where
  leadUniverse : Universe
  coherenceScore : ℚ
deriving DecidableEq

/-- `synthesizePerspectives`: fails with the `MissingPerspective` condition
(the state's `error` field, embedded as `Except.error`) when any of the
three inputs is absent; otherwise builds the analysis. -/
def synthesizePerspectives (engineer ceremony storyEngine : Option SynthPerspective) :
    Except String SynthResult :=
  match engineer, ceremony, storyEngine with
  | some e, some c, some s =>
      Except.ok ⟨determineLeadUniverse e c s, calculateCoherence e c s⟩
  | _, _, _ => Except.error "Missing one or more perspectives"

/-- The coherence formula in the specification's wording: clamp to `[0,1]`
of (mean of the three confidences) + alignmentBonus − spreadPenalty,
rounded to two decimals; `alignmentBonus = 0.1` exactly when at least two
of the three urgency signals hold, `spreadPenalty = (max − min) × 0.2`. -/
def coherenceSpecFormula (engineer ceremony storyEngine : SynthPerspective) : ℚ :=
  let mean := (engineer.confidence + ceremony.confidence + storyEngine.confidence) / 3
  let engineerUrgent : Bool := ["security", "bug_fix", "performance"].contains engineer.intent
  let ceremonyUrgent : Bool := ceremony.senderEnergy == "urgent_flow"
  let storyUrgent : Bool := decide (storyEngine.dramaticTension > 7/10)
  let urgentCount : ℕ := (if engineerUrgent then 1 else 0) +
    (if ceremonyUrgent then 1 else 0) + (if storyUrgent then 1 else 0)
  let alignmentBonus : ℚ := if 2 ≤ urgentCount then 1/10 else 0
  let spreadPenalty :=
    (max engineer.confidence (max ceremony.confidence storyEngine.confidence) -
      min engineer.confidence (min ceremony.confidence storyEngine.confidence)) * (1/5)
  jsRound2 (clamp01 (mean + alignmentBonus - spreadPenalty))

theorem filter_id_three (a b c : Bool) :
    (List.filter id [a, b, c]).length =
      (if a then 1 else 0) + (if b then 1 else 0) + (if c then 1 else 0) := by
  cases a <;> cases b <;> cases c <;> decide

theorem calculateCoherence_eq_spec (e c s : SynthPerspective) :
    calculateCoherence e c s = coherenceSpecFormula e c s := by
  simp only [calculateCoherence, coherenceSpecFormula, filter_id_three,
    jsMax_eq, jsMin_eq]

/-! ## Unified narrative state ledger (`unified_state_bridge.ts`)

`Record<string, T>` maps are embedded as association lists in insertion
order; the enum-typed `narrativeFunction`/`phase` fields are embedded as
their runtime string values (the TS enums are string enums).  The beat's
optional `universeAnalysis` payload is not consulted by any ledger
operation or scorer and is omitted from the embedding. -/

structure GrowthPoint where
  timestamp : String
  impact : ℚ
  description : String
deriving DecidableEq

structure CharacterState where
  id : String
  name : String
  archetype : String
  universe' : Universe
  arcPosition : ℚ
  initialState : String
  currentState : String
  growthPoints : List GrowthPoint
  relationships : List String
deriving DecidableEq

structure ThematicThread where
  id : String
  name : String
  description : String
  strength : ℚ
  tensionLevel : ℚ
  resolutionProgress : ℚ
  beatIds : List String
deriving DecidableEq

structure StoryBeat where
  id : String
  sequence : ℤ
  content : String
  narrativeFunction : String
  act : ℤ
  leadUniverse : Universe
  emotionalTone : String
  thematicTags : List String
  characterId : Option String
  characterArcImpact : ℚ
  source : String
  sourceEventId : Option String
  timestamp : String
  enrichmentsApplied : List String
  qualityScore : ℚ
deriving DecidableEq

structure NarrativePosition where
  act : ℤ
  phase : String
  currentBeatId : Option String
  beatCount : ℕ
  characterArcStrength : ℚ
  thematicResonance : ℚ
  emotionalTone : String
  leadUniverse : Universe
deriving DecidableEq

/-- Routing decision audit record; of its `universeAnalysis` payload only
the `coherenceScore` is ever read back (by the rolling-coherence metric),
so the embedding keeps that value. -/
structure RoutingDecision where
  id : String
  backend : String
  flow : String
  analysisCoherence : ℚ
  score : ℚ
  method : String
  success : Bool
  resultSummary : String
  latencyMs : ℚ
  timestamp : String
deriving DecidableEq

structure UnifiedNarrativeState where
  storyId : String
  sessionId : String
  position : NarrativePosition
  beats : List StoryBeat
  characters : List (String × CharacterState)
  themes : List (String × ThematicThread)
  routingDecisions : List RoutingDecision
  currentEpisodeId : Option String
  episodeBeatsCount : ℕ
  createdAt : String
  updatedAt : String
  overallCoherence : ℚ
  emotionalArcStrength : ℚ
deriving DecidableEq

/-- JS object property write `obj[k] = v` for a key already present:
replaces the value, keeps the position. -/
def setAssoc {α : Type} (l : List (String × α)) (k : String) (v : α) :
    List (String × α) :=
  l.map (fun p => if p.1 = k then (p.1, v) else p)

/-- `createNarrativePosition()` defaults. -/
def createNarrativePosition : NarrativePosition :=
  { act := 1, phase := "setup", currentBeatId := none, beatCount := 0,
    characterArcStrength := 1/2, thematicResonance := 1/2,
    emotionalTone := "neutral", leadUniverse := Universe.story_engine }

/-- `getDefaultCharacters()`. -/
def getDefaultCharacters : List (String × CharacterState) :=
  [("the-builder",
    { id := "the-builder", name := "Mia", archetype := "The Builder",
      universe' := Universe.engineer, arcPosition := 0,
      initialState := "Analytical, focused on structural integrity",
      currentState := "Analytical, focused on structural integrity",
      growthPoints := [], relationships := [] }),
   ("the-keeper",
    { id := "the-keeper", name := "Ava8", archetype := "The Keeper",
      universe' := Universe.ceremony, arcPosition := 0,
      initialState := "Reverent, guardian of relational protocols",
      currentState := "Reverent, guardian of relational protocols",
      growthPoints := [], relationships := [] }),
   ("the-weaver",
    { id := "the-weaver", name := "Miette", archetype := "The Weaver",
      universe' := Universe.story_engine, arcPosition := 0,
      initialState := "Playful, sees narrative patterns in chaos",
      currentState := "Playful, sees narrative patterns in chaos",
      growthPoints := [], relationships := [] })]

/-- `getDefaultThemes()`. -/
def getDefaultThemes : List (String × ThematicThread) :=
  [("integration",
    { id := "integration", name := "Integration Without Extraction",
      description := "The tension between connecting systems and respecting their autonomy",
      strength := 1/2, tensionLevel := 1/2, resolutionProgress := 0, beatIds := [] }),
   ("collaboration",
    { id := "collaboration", name := "Cross-Universe Collaboration",
      description := "Three perspectives learning to work together while maintaining distinction",
      strength := 1/2, tensionLevel := 1/2, resolutionProgress := 0, beatIds := [] }),
   ("coherence",
    { id := "coherence", name := "Narrative Coherence",
      description := "The gap between disconnected events and meaningful story",
      strength := 1/2, tensionLevel := 1/2, resolutionProgress := 0, beatIds := [] })]

/-- `createUnifiedNarrativeState` with default characters and themes. -/
def createUnifiedNarrativeState (storyId sessionId now : String) : UnifiedNarrativeState :=
  { storyId := storyId, sessionId := sessionId,
    position := createNarrativePosition, beats := [],
    characters := getDefaultCharacters, themes := getDefaultThemes,
    routingDecisions := [], currentEpisodeId := none, episodeBeatsCount := 0,
    createdAt := now, updatedAt := now,
    overallCoherence := 1/2, emotionalArcStrength := 1/2 }

/-- `addBeat(state, beat)`: push, recompute the position from the new
beat, update act/phase by the fixed mapping, bump the episode counter. -/
def addBeat (state : UnifiedNarrativeState) (beat : StoryBeat) (now : String) :
    UnifiedNarrativeState :=
  let beats := state.beats ++ [beat]
  let pos0 := { state.position with
    beatCount := beats.length,
    currentBeatId := some beat.id,
    leadUniverse := beat.leadUniverse }
  let pos :=
    if beat.narrativeFunction = "inciting_incident" then
      { pos0 with act := 1, phase := "setup" }
    else if beat.narrativeFunction = "turning_point" ∨
        beat.narrativeFunction = "crisis" then
      { pos0 with act := 2, phase := "confrontation" }
    else if beat.narrativeFunction = "climax" ∨
        beat.narrativeFunction = "resolution" then
      { pos0 with act := 3, phase := "resolution" }
    else pos0
  { state with
    beats := beats, position := pos,
    episodeBeatsCount := state.episodeBeatsCount + 1, updatedAt := now }

/-- `updateCharacterArc(state, characterId, impact, description)`:
silent no-op when the character id is unknown; otherwise add the clamped
delta (ceiling `1.0`) and append a growth point. -/
def updateCharacterArc (state : UnifiedNarrativeState) (characterId : String)
    (impact : ℚ) (description now : String) : UnifiedNarrativeState :=
  match state.characters.lookup characterId with
  | some character =>
      let updated := { character with
        arcPosition := jsMin 1 (character.arcPosition + impact),
        growthPoints := character.growthPoints ++
          [{ timestamp := now, impact := impact, description := description }] }
      { state with
        characters := setAssoc state.characters characterId updated,
        updatedAt := now }
  | none => state

/-- `updateThemeStrength(state, themeId, strengthDelta)`: silent no-op when
the theme id is unknown; otherwise clamp the new strength into `[0,1]`. -/
def updateThemeStrength (state : UnifiedNarrativeState) (themeId : String)
    (strengthDelta : ℚ) (now : String) : UnifiedNarrativeState :=
  match state.themes.lookup themeId with
  | some theme =>
      let updated := { theme with strength := clamp01 (theme.strength + strengthDelta) }
      { state with
        themes := setAssoc state.themes themeId updated,
        updatedAt := now }
  | none => state

/-- An arbitrary interleaving of arc and theme updates. -/
inductive LedgerOp
  | arc (characterId : String) (impact : ℚ) (description now : String)
  | theme (themeId : String) (delta : ℚ) (now : String)

def applyOp (s : UnifiedNarrativeState) : LedgerOp → UnifiedNarrativeState
  | .arc cid i d n => updateCharacterArc s cid i d n
  | .theme tid dl n => updateThemeStrength s tid dl n

def applyOps (s : UnifiedNarrativeState) (ops : List LedgerOp) : UnifiedNarrativeState :=
  ops.foldl applyOp s

/-- Every character's `arcPosition` is at most `1`. -/
def charArcBounded (s : UnifiedNarrativeState) : Prop :=
  ∀ p ∈ s.characters, p.2.arcPosition ≤ 1

/-- Every theme's `strength` lies in `[0,1]`. -/
def themeStrengthBounded (s : UnifiedNarrativeState) : Prop :=
  ∀ p ∈ s.themes, 0 ≤ p.2.strength ∧ p.2.strength ≤ 1

theorem updateCharacterArc_charArcBounded {s : UnifiedNarrativeState}
    (h : charArcBounded s) (cid : String) (i : ℚ) (d n : String) :
    charArcBounded (updateCharacterArc s cid i d n) := by
  unfold updateCharacterArc
  cases hl : s.characters.lookup cid with
  | none => exact h
  | some character =>
    intro p hp
    simp only [setAssoc, List.mem_map] at hp
    obtain ⟨q, hq, hqp⟩ := hp
    split at hqp
    · rw [← hqp]
      simp only
      rw [jsMin_eq]
      exact min_le_left 1 _
    · rw [← hqp]
      exact h q hq

theorem updateCharacterArc_themeStrengthBounded {s : UnifiedNarrativeState}
    (h : themeStrengthBounded s) (cid : String) (i : ℚ) (d n : String) :
    themeStrengthBounded (updateCharacterArc s cid i d n) := by
  unfold updateCharacterArc
  cases hl : s.characters.lookup cid with
  | none => exact h
  | some character => exact h

theorem updateThemeStrength_themeStrengthBounded {s : UnifiedNarrativeState}
    (h : themeStrengthBounded s) (tid : String) (dl : ℚ) (n : String) :
    themeStrengthBounded (updateThemeStrength s tid dl n) := by
  unfold updateThemeStrength
  cases hl : s.themes.lookup tid with
  | none => exact h
  | some theme =>
    intro p hp
    simp only [setAssoc, List.mem_map] at hp
    obtain ⟨q, hq, hqp⟩ := hp
    split at hqp
    · rw [← hqp]
      exact ⟨clamp01_nonneg _, clamp01_le_one _⟩
    · rw [← hqp]
      exact h q hq

theorem updateThemeStrength_charArcBounded {s : UnifiedNarrativeState}
    (h : charArcBounded s) (tid : String) (dl : ℚ) (n : String) :
    charArcBounded (updateThemeStrength s tid dl n) := by
  unfold updateThemeStrength
  cases hl : s.themes.lookup tid with
  | none => exact h
  | some theme => exact h

theorem applyOps_bounded {s : UnifiedNarrativeState} {ops : List LedgerOp}
    (hc : charArcBounded s) (ht : themeStrengthBounded s) :
    charArcBounded (applyOps s ops) ∧ themeStrengthBounded (applyOps s ops) := by
  induction ops generalizing s with
  | nil => exact ⟨hc, ht⟩
  | cons op ops ih =>
    rw [applyOps, List.foldl_cons]
    cases op with
    | arc cid i d n =>
      exact ih (updateCharacterArc_charArcBounded hc cid i d n)
        (updateCharacterArc_themeStrengthBounded ht cid i d n)
    | theme tid dl n =>
      exact ih (updateThemeStrength_charArcBounded hc tid dl n)
        (updateThemeStrength_themeStrengthBounded ht tid dl n)

theorem updateCharacterArc_noop (s : UnifiedNarrativeState) (cid : String) (i : ℚ)
    (d n : String) (hl : s.characters.lookup cid = none) :
    updateCharacterArc s cid i d n = s := by
  unfold updateCharacterArc
  rw [hl]

theorem updateThemeStrength_noop (s : UnifiedNarrativeState) (tid : String) (dl : ℚ)
    (n : String) (hl : s.themes.lookup tid = none) :
    updateThemeStrength s tid dl n = s := by
  unfold updateThemeStrength
  rw [hl]

/-- A concrete ledger, beat, and op list used to instantiate the ledger
theorems. -/
def sampleLedger : UnifiedNarrativeState :=
  createUnifiedNarrativeState "story_1" "session_1" "2025-01-01T00:00:00Z"

def sampleBeat : StoryBeat :=
  { id := "beat_1", sequence := 1, content := "final release ships",
    narrativeFunction := "climax", act := 3,
    leadUniverse := Universe.story_engine, emotionalTone := "triumphant",
    thematicTags := [], characterId := none, characterArcImpact := 0,
    source := "generator", sourceEventId := none,
    timestamp := "2025-01-01T00:00:00Z", enrichmentsApplied := [],
    qualityScore := 1/2 }

def sampleOps : List LedgerOp :=
  [LedgerOp.arc "the-builder" 2 "growth" "t1",
   LedgerOp.theme "integration" (-3) "t2",
   LedgerOp.arc "missing-character" 5 "growth" "t3"]

theorem sampleLedger_charArcBounded : charArcBounded sampleLedger := by
  intro p hp
  simp only [sampleLedger, createUnifiedNarrativeState, getDefaultCharacters,
    List.mem_cons, List.not_mem_nil, or_false] at hp
  rcases hp with rfl | rfl | rfl <;> norm_num

theorem sampleLedger_themeStrengthBounded : themeStrengthBounded sampleLedger := by
  intro p hp
  simp only [sampleLedger, createUnifiedNarrativeState, getDefaultThemes,
    List.mem_cons, List.not_mem_nil, or_false] at hp
  rcases hp with rfl | rfl | rfl <;> norm_num

/-- C6: after `addBeat` (appendBeat) on a ledger whose `beatCount` agrees
with its beat list (the position is derived from the beat list), the beat
count and episode counter grow by exactly one, `currentBeatId` is the new
beat's id, the beat list is extended by exactly the new beat at the end
(nothing removed or reordered), and act/phase follow the fixed mapping:
inciting_incident → 1/setup; turning_point or crisis → 2/confrontation;
climax or resolution → 3/resolution; any other narrative function leaves
act and phase unchanged. -/
theorem addBeat_append_monotone (state : UnifiedNarrativeState) (beat : StoryBeat)
    (now : String) (hwf : state.position.beatCount = state.beats.length) :
    (addBeat state beat now).position.beatCount = state.position.beatCount + 1 ∧
    (addBeat state beat now).position.currentBeatId = some beat.id ∧
    (addBeat state beat now).episodeBeatsCount = state.episodeBeatsCount + 1 ∧
    (addBeat state beat now).beats = state.beats ++ [beat] ∧
    (beat.narrativeFunction = "inciting_incident" →
      (addBeat state beat now).position.act = 1 ∧
        (addBeat state beat now).position.phase = "setup") ∧
    (beat.narrativeFunction = "turning_point" ∨ beat.narrativeFunction = "crisis" →
      (addBeat state beat now).position.act = 2 ∧
        (addBeat state beat now).position.phase = "confrontation") ∧
    (beat.narrativeFunction = "climax" ∨ beat.narrativeFunction = "resolution" →
      (addBeat state beat now).position.act = 3 ∧
        (addBeat state beat now).position.phase = "resolution") ∧
    (beat.narrativeFunction ∉ ["inciting_incident", "turning_point", "crisis",
        "climax", "resolution"] →
      (addBeat state beat now).position.act = state.position.act ∧
        (addBeat state beat now).position.phase = state.position.phase) := by
  refine ⟨?_, ?_, ?_, ?_, ?_, ?_, ?_, ?_⟩
  · simp only [addBeat]
    split_ifs <;> simp [hwf]
  · simp only [addBeat]
    split_ifs <;> simp
  · simp [addBeat]
  · simp [addBeat]
  · intro h1
    simp [addBeat, h1]
  · rintro (h1 | h1)
    · simp [addBeat, h1]
    · simp [addBeat, h1]
  · rintro (h1 | h1)
    · simp [addBeat, h1]
    · simp [addBeat, h1]
  · intro hmem
    simp only [List.mem_cons, List.not_mem_nil, or_false, not_or] at hmem
    obtain ⟨h1, h2, h3, h4, h5⟩ := hmem
    simp [addBeat, h1, h2, h3, h4, h5]

/-- C6 witness: the theorem instantiated at a concrete consistent ledger
and a climax beat. -/
theorem addBeat_append_monotone_witness :
    (addBeat sampleLedger sampleBeat "t1").position.beatCount =
        sampleLedger.position.beatCount + 1 ∧
      (addBeat sampleLedger sampleBeat "t1").position.act = 3 ∧
      (addBeat sampleLedger sampleBeat "t1").position.phase = "resolution" := by
  have h := addBeat_append_monotone sampleLedger sampleBeat "t1" rfl
  exact ⟨h.1, (h.2.2.2.2.2.2.1 (Or.inl rfl)).1, (h.2.2.2.2.2.2.1 (Or.inl rfl)).2⟩

/-- C7: under any sequence of `updateCharacterArc`/`updateThemeStrength`
calls with arbitrary deltas, every character's `arcPosition` stays at most
`1.0` and every theme's `strength` stays inside `[0,1]` (given they start
there); and an update naming an unknown character or theme id is a silent
no-op that leaves the whole ledger unchanged. -/
theorem ledger_clamping_and_unknown_noop (s : UnifiedNarrativeState)
    (ops : List LedgerOp) (hc : charArcBounded s) (ht : themeStrengthBounded s) :
    charArcBounded (applyOps s ops) ∧ themeStrengthBounded (applyOps s ops) ∧
    (∀ cid i d n, s.characters.lookup cid = none → updateCharacterArc s cid i d n = s) ∧
    (∀ tid dl n, s.themes.lookup tid = none → updateThemeStrength s tid dl n = s) := by
  obtain ⟨h1, h2⟩ := @applyOps_bounded s ops hc ht
  exact ⟨h1, h2,
    fun cid i d n hl => updateCharacterArc_noop s cid i d n hl,
    fun tid dl n hl => updateThemeStrength_noop s tid dl n hl⟩

/-- C7 witness: the theorem instantiated at the default-seeded ledger with
a concrete op sequence (an overshooting arc delta, an undershooting theme
delta, and an update for an unknown character). -/
theorem ledger_clamping_and_unknown_noop_witness :
    charArcBounded (applyOps sampleLedger sampleOps) ∧
      themeStrengthBounded (applyOps sampleLedger sampleOps) ∧
      updateCharacterArc sampleLedger "missing-character" 5 "d" "t9" = sampleLedger := by
  have h := ledger_clamping_and_unknown_noop sampleLedger sampleOps
    sampleLedger_charArcBounded sampleLedger_themeStrengthBounded
  refine ⟨h.1, h.2.1, h.2.2.1 "missing-character" 5 "d" "t9" ?_⟩
  decide

/-! ## Coherence engine (`coherence_engine.ts`)

Five heuristic scorers over the beat list, each producing a
`ComponentScore`; statuses derive from the score thresholds. -/

structure ComponentScore where
  score : ℚ
  status : String
  issues : List String
  suggestions : List String
deriving DecidableEq

/-- Status from score: `good` at ≥ 70, `warning` at ≥ 50, else `critical`. -/
def statusOf (score : ℚ) : String :=
  if score ≥ 70 then "good" else if score ≥ 50 then "warning" else "critical"

def setupFuncs : List String := ["setup", "introduction", "discovery"]

def escalationFuncs : List String := ["confrontation", "crisis", "climax"]

/-- First loop of `analyzeNarrativeFlow`: the index of the first
escalation-function beat seen before any setup-type function, if any (the
loop reports this at most once and stops looking once a setup-type
function appears). -/
def flowSetupViolation : List String → ℕ → Option ℕ
  | [], _ => none
  | f :: rest, i =>
    if f ∈ setupFuncs then none
    else if f ∈ escalationFuncs then some i
    else flowSetupViolation rest (i + 1)

def jarringPairs : List (String × String) :=
  [("devastating", "joyful"), ("fearful", "peaceful"), ("triumphant", "devastating")]

/-- How many jarring pairs match one adjacent tone transition (the inner
loop pushes one issue per matching pair). -/
def jarringCount (prevTone tone : String) : ℕ :=
  (jarringPairs.filter fun p =>
    (occursIn p.1 (strLower prevTone) && occursIn p.2 (strLower tone)) ||
    (occursIn p.2 (strLower prevTone) && occursIn p.1 (strLower tone))).length

/-- Second loop of `analyzeNarrativeFlow`: jarring-transition count and
issue list; the check is skipped when either tone is the empty string
(JS truthiness of `prevTone && beat.emotionalTone`). -/
def flowJarring : Option String → List StoryBeat → ℕ → ℕ × List String
  | _, [], _ => (0, [])
  | prev, b :: rest, i =>
    let res := flowJarring (some b.emotionalTone) rest (i + 1)
    match prev with
    | some pt =>
      if pt ≠ "" ∧ b.emotionalTone ≠ "" then
        let k := jarringCount pt b.emotionalTone
        (k + res.1,
         List.replicate k ("Jarring emotional transition at Beat " ++ natStr (i + 1)) ++ res.2)
      else res
    | none => res

/-- `analyzeNarrativeFlow`. -/
def analyzeNarrativeFlow (beats : List StoryBeat) : ComponentScore :=
  if beats.length < 2 then
    { score := 50, status := statusOf 50,
      issues := ["Too few beats to assess flow"],
      suggestions := ["Add more story beats to establish narrative rhythm"] }
  else
    let functions := beats.map (·.narrativeFunction)
    let setupIssues : List String :=
      match flowSetupViolation functions 0 with
      | some i => ["Beat " ++ natStr (i + 1) ++ " escalates without proper setup"]
      | none => []
    let jar := flowJarring none beats 0
    let issues := setupIssues ++ jar.2
    let score := clamp100 (85 - (jar.1 : ℚ) * 10 -
      ((issues.filter (fun i => occursIn "without proper setup" i)).length : ℚ) * 15)
    let hasProperStructure :=
      functions.any (fun f => setupFuncs.contains f || escalationFuncs.contains f)
    let suggestions :=
      (if jar.1 > 0 then ["Add transitional beats to smooth emotional shifts"] else []) ++
      (if !hasProperStructure then
        ["Consider adding setup beats before major confrontations"] else [])
    { score := score, status := statusOf score, issues := issues,
      suggestions := suggestions }

/-- Distinct keys of a JS object in first-insertion order. -/
def uniqueKeys : List String → List String
  | [] => []
  | x :: xs => x :: uniqueKeys (xs.filter (fun y => y ≠ x))
termination_by l => l.length
decreasing_by
  simp_wf
  exact Nat.lt_succ_of_le (List.length_filter_le _ _)

/-- Beat indices referencing a character id (skipping beats whose
`characterId` is absent or the empty string — JS truthiness). -/
def appearances (beats : List StoryBeat) (cid : String) : List ℕ :=
  (beats.enum.filter fun p =>
    match p.2.characterId with
    | some c => c ≠ "" && c == cid
    | none => false).map (·.1)

def adjacentPairs : List ℕ → List (ℕ × ℕ)
  | a :: b :: rest => (a, b) :: adjacentPairs (b :: rest)
  | _ => []

/-- `char?.name || charId`: display name with JS falsy fallback. -/
def displayName (chars : List CharacterState) (cid : String) : String :=
  match chars.find? (fun ch => ch.id == cid) with
  | some ch => if ch.name ≠ "" then ch.name else cid
  | none => cid

/-- Per-character appearance gaps greater than 5 beats, in map order:
`(characterId, previous index, next index)`. -/
def disappearanceData (chars : List CharacterState) (beats : List StoryBeat) :
    List (String × ℕ × ℕ) :=
  (uniqueKeys (chars.map (·.id))).flatMap fun cid =>
    (adjacentPairs (appearances beats cid)).filterMap fun p =>
      if p.2 - p.1 > 5 then some (cid, p.1, p.2) else none

/-- `analyzeCharacterConsistency`. -/
def analyzeCharacterConsistency (beats : List StoryBeat) (chars : List CharacterState) :
    ComponentScore :=
  if chars.length = 0 then
    { score := 50, status := statusOf 50,
      issues := ["No character data provided"],
      suggestions := ["Define character states to enable consistency analysis"] }
  else
    let dis := disappearanceData chars beats
    let disIssues := dis.map fun d =>
      "Character '" ++ displayName chars d.1 ++ "' disappears for " ++
        natStr (d.2.2 - d.2.1) ++ " beats"
    let disSuggestions := dis.map fun d =>
      "Consider adding '" ++ displayName chars d.1 ++ "' to beats between " ++
        natStr (d.2.1 + 1) ++ " and " ++ natStr (d.2.2 + 1)
    let arcIssues := (chars.filter fun ch =>
        decide (ch.arcPosition < 1/10) && decide (beats.length > 5)).map fun ch =>
      "Character '" ++ ch.name ++ "' has minimal arc progression"
    let issues := disIssues ++ arcIssues
    let score := clamp100 (90 -
      ((issues.filter (fun i => occursIn "disappears" i)).length : ℚ) * 8 -
      ((issues.filter (fun i => occursIn "minimal arc" i)).length : ℚ) * 12)
    { score := score, status := statusOf score, issues := issues,
      suggestions := disSuggestions }

def highTensionFuncs : List String := ["confrontation", "crisis", "climax", "revelation"]

/-- Longest run of consecutive beats whose (lower-cased) function contains
a high-tension function name. -/
def maxRunAux : List String → ℕ → ℕ → ℕ
  | [], _, best => best
  | f :: rest, cur, best =>
    if highTensionFuncs.any (fun ht => occursIn ht f) then
      maxRunAux rest (cur + 1) (max best (cur + 1))
    else maxRunAux rest 0 best

def pacingFunctions (beats : List StoryBeat) : List String :=
  beats.map fun b => strLower b.narrativeFunction

def pacingMaxRun (beats : List StoryBeat) : ℕ := maxRunAux (pacingFunctions beats) 0 0

/-- Indices of beats whose function contains `"climax"`. -/
def climaxPositions (functions : List String) : List ℕ :=
  (functions.enum.filter fun p => occursIn "climax" p.2).map (·.1)

/-- The climax penalty of `analyzePacing`: −20 with no climax beat, −15
when the last climax sits before the 50% mark, else 0. -/
def pacingClimaxPenalty (beats : List StoryBeat) : ℚ :=
  match (climaxPositions (pacingFunctions beats)).getLast? with
  | none => 20
  | some last => if (last : ℚ) < (beats.length : ℚ) * (1/2) then 15 else 0

/-- `analyzePacing`.  Note that the consecutive-high-tension penalty
`min(20, 5 × maxRun)` is subtracted unconditionally, while the
corresponding issue is flagged only when the run exceeds 3. -/
def analyzePacing (beats : List StoryBeat) : ComponentScore :=
  if beats.length < 3 then
    { score := 50, status := statusOf 50,
      issues := ["Too few beats to assess pacing"],
      suggestions := ["Add more beats to establish proper pacing rhythm"] }
  else
    let functions := pacingFunctions beats
    let cps := climaxPositions functions
    let mr := pacingMaxRun beats
    let climaxIssues : List String :=
      match cps.getLast? with
      | none => ["No climax beat identified"]
      | some last =>
          if (last : ℚ) < (beats.length : ℚ) * (1/2) then
            ["Climax occurs too early in the narrative"] else []
    let climaxSuggestions : List String :=
      match cps.getLast? with
      | none => ["Ensure at least one beat has a climax function"]
      | some last =>
          if (last : ℚ) < (beats.length : ℚ) * (1/2) then
            ["Move climax to later in the story or add post-climax resolution beats"]
          else []
    let issues := climaxIssues ++
      (if mr > 3 then ["Found " ++ natStr mr ++ " consecutive high-tension beats"] else [])
    let suggestions := climaxSuggestions ++
      (if mr > 3 then ["Add breathing room with quieter beats between intense moments"]
       else [])
    let score := clamp100 (85 - pacingClimaxPenalty beats - jsMin 20 ((mr : ℚ) * 5))
    { score := score, status := statusOf score, issues := issues,
      suggestions := suggestions }

/-- JS object write `m[k] = v`: replace in place or append. -/
def upsert : List (String × ℚ) → String → ℚ → List (String × ℚ)
  | [], k, v => [(k, v)]
  | p :: rest, k, v => if p.1 = k then (p.1, v) :: rest else p :: upsert rest k v

/-- Share of beats tagging a theme (`beatsWithTheme / max(beats.length, 1)`). -/
def themeCoverage (beats : List StoryBeat) (theme : ThematicThread) : ℚ :=
  ((beats.filter fun b => b.thematicTags.contains theme.id).length : ℚ) /
    ((max beats.length 1 : ℕ) : ℚ)

/-- `analyzeThemeSaturation`.  The coverage map is keyed by theme *name*
(duplicate names overwrite). -/
def analyzeThemeSaturation (beats : List StoryBeat) (themes : List ThematicThread) :
    ComponentScore :=
  if themes.length = 0 then
    { score := 50, status := statusOf 50,
      issues := ["No themes defined"],
      suggestions := ["Define thematic threads to enable saturation analysis"] }
  else
    let coverageMap := themes.foldl
      (fun m theme => upsert m theme.name (themeCoverage beats theme)) []
    let issues := themes.flatMap fun theme =>
      (if themeCoverage beats theme < 1/5 ∧ theme.strength > 1/2 then
        ["Theme '" ++ theme.name ++ "' is important but appears rarely"] else []) ++
      (if themeCoverage beats theme > 3/10 ∧ theme.strength < 3/10 then
        ["Theme '" ++ theme.name ++ "' appears often but lacks impact"] else [])
    let suggestions := themes.flatMap fun theme =>
      (if themeCoverage beats theme < 1/5 ∧ theme.strength > 1/2 then
        ["Weave '" ++ theme.name ++ "' into more beats to fulfill its promise"] else []) ++
      (if themeCoverage beats theme > 3/10 ∧ theme.strength < 3/10 then
        ["Strengthen the thematic weight of '" ++ theme.name ++ "' in key beats"] else [])
    let coverageValues := coverageMap.map (·.2)
    let avgCoverage := (coverageValues.foldl (· + ·) 0) /
      ((max coverageValues.length 1 : ℕ) : ℚ)
    let base := jsMin 100 (avgCoverage * 100 + 20)
    let score := clamp100 (base -
      ((issues.filter (fun i => occursIn "rarely" i)).length : ℚ) * 10 -
      ((issues.filter (fun i => occursIn "lacks impact" i)).length : ℚ) * 8)
    { score := score, status := statusOf score, issues := issues,
      suggestions := suggestions }

/-- JS `Math.max(a, b)` on integers. -/
def intMax (a b : ℤ) : ℤ := if a ≤ b then b else a

/-- JS `Math.max(...sequences)` (list known nonempty at the call site). -/
def listMax : List ℤ → ℤ
  | [] => 0
  | x :: xs => xs.foldl intMax x

/-- Lexicographic comparison of rendered numerals (JS default
`Array.prototype.sort()` compares elements as strings). -/
def lexLeChars : List Char → List Char → Bool
  | [], _ => true
  | _ :: _, [] => false
  | a :: as, b :: bs => if a = b then lexLeChars as bs else decide (a < b)

def jsSortNums (l : List ℤ) : List ℤ :=
  List.insertionSort (fun a b => lexLeChars (intToChars a) (intToChars b) = true) l

/-- `missing.sort().join(", ")`. -/
def seqJoin : List ℤ → List Char
  | [] => []
  | [x] => intToChars x
  | x :: y :: rest => intToChars x ++ ',' :: ' ' :: seqJoin (y :: rest)

def missingMsg (missing : List ℤ) : String :=
  "Missing beat sequences: " ++ String.mk (seqJoin (jsSortNums missing))

/-- The missing values of the integer range `[1, maxSequence]`. -/
def missingSeqs (sequences : List ℤ) : List ℤ :=
  ((List.range (listMax sequences).toNat).map (fun i => ((i : ℤ) + 1))).filter
    (fun x => !(sequences.contains x))

/-- `analyzeContinuity`. -/
def analyzeContinuity (beats : List StoryBeat) : ComponentScore :=
  if beats.length < 2 then
    { score := 70, status := statusOf 70,
      issues := ["Too few beats for continuity analysis"], suggestions := [] }
  else
    let sequences := beats.map (·.sequence)
    let sortedSequences := List.insertionSort (· ≤ ·) sequences
    let orderIssues : List String :=
      if sequences ≠ sortedSequences then ["Beat sequences are not in order"] else []
    let dupIssues : List String :=
      if sequences.length ≠ sequences.dedup.length then
        ["Duplicate beat sequence numbers found"] else []
    let missing := missingSeqs sequences
    let missingIssues : List String :=
      if missing.length > 0 ∧ missing.length ≤ 3 then [missingMsg missing] else []
    let issues := orderIssues ++ dupIssues ++ missingIssues
    let suggestions :=
      (if sequences ≠ sortedSequences then
        ["Reorder beats to ensure logical sequence progression"] else []) ++
      (if sequences.length ≠ sequences.dedup.length then
        ["Ensure each beat has a unique sequence number"] else []) ++
      (if missing.length > 0 ∧ missing.length ≤ 3 then
        ["Fill in missing beat sequences or renumber"] else [])
    let score := clamp100 (90 -
      ((issues.filter (fun i => occursIn "not in order" i)).length : ℚ) * 20 -
      ((issues.filter (fun i => occursIn "Duplicate" i)).length : ℚ) * 15 -
      ((issues.filter (fun i => occursIn "Missing" i)).length : ℚ) * 5)
    { score := score, status := statusOf score, issues := issues,
      suggestions := suggestions }

inductive GapType
  | structural
  | thematic
  | character
  | sensory
  | continuity
deriving DecidableEq, Repr

inductive GapSeverity
  | critical
  | moderate
  | minor
deriving DecidableEq, Repr

inductive RoutingTarget
  | storyteller
  | structurist
  | architect
  | author
deriving DecidableEq, Repr

structure Gap where
  id : String
  gapType : GapType
  severity : GapSeverity
  description : String
  locationComponent : String
  suggestedRoute : RoutingTarget
  resolved : Bool
deriving DecidableEq

/-- The `severityOrder` record of `identifyGaps`. -/
def severityOrder : GapSeverity → ℕ
  | .critical => 0
  | .moderate => 1
  | .minor => 2

/-- Routing target fixed per gap type. -/
def routeOf : GapType → RoutingTarget
  | .structural => .structurist
  | .character => .storyteller
  | .thematic => .structurist
  | .sensory => .storyteller
  | .continuity => .author

/-- Severity rule of `identifyGaps`: critical source status wins, then the
"rarely"/"disappears" text check, else minor. -/
def severityOf (status : String) (issue : String) : GapSeverity :=
  if status = "critical" then .critical
  else if occursIn "rarely" issue || occursIn "disappears" issue then .moderate
  else .minor

/-- The issues of the mapped components flattened in mapping order, each
as `(componentKey, gapType, componentStatus, issueText)`. -/
def preGaps (comps : List (String × GapType × Option ComponentScore)) :
    List (String × GapType × String × String) :=
  comps.flatMap fun entry =>
    match entry.2.2 with
    | some c => c.issues.map fun issue => (entry.1, entry.2.1, c.status, issue)
    | none => []

def mkGap (n : ℕ) (p : String × GapType × String × String) : Gap :=
  { id := "gap_" ++ natStr n, gapType := p.2.1,
    severity := severityOf p.2.2.1 p.2.2.2, description := p.2.2.2,
    locationComponent := p.1, suggestedRoute := routeOf p.2.1,
    resolved := false }

/-- `generateGapId` increments the engine's counter and renders it; the
emission loop therefore gives the `j`-th emitted gap (0-based) the id
`gap_(counter + j + 1)`. -/
def assignIds : ℕ → List (String × GapType × String × String) → List Gap
  | _, [] => []
  | n, p :: rest => mkGap (n + 1) p :: assignIds (n + 1) rest

def gapLe (a b : Gap) : Prop := severityOrder a.severity ≤ severityOrder b.severity

instance : DecidableRel gapLe := fun a b =>
  Nat.decLe (severityOrder a.severity) (severityOrder b.severity)

/-- `gaps.sort((a, b) => severityOrder[a.severity] - severityOrder[b.severity])`;
JS `Array.prototype.sort` is stable, so this is a stable sort by the
severity key. -/
def sortGaps (gaps : List Gap) : List Gap := List.insertionSort gapLe gaps

/-- The five component-to-gap-type mappings, in source order, over an
analysis state's optional component scores. -/
def componentMappings (flow char pacing theme cont : Option ComponentScore) :
    List (String × GapType × Option ComponentScore) :=
  [("narrativeFlowScore", GapType.structural, flow),
   ("characterConsistencyScore", GapType.character, char),
   ("pacingScore", GapType.structural, pacing),
   ("themeSaturationScore", GapType.thematic, theme),
   ("continuityScore", GapType.continuity, cont)]

/-- `identifyGaps`: one gap per issue, typed by source scorer, severity by
the rule above, routed by type, sorted severity-first; returns the new
value of the engine's gap counter. -/
def identifyGaps (counter : ℕ) (flow char pacing theme cont : Option ComponentScore) :
    List Gap × ℕ :=
  let pgs := preGaps (componentMappings flow char pacing theme cont)
  (sortGaps (assignIds counter pgs), counter + pgs.length)

structure TrinityAssessment where
  mia : String
  miette : String
  ava8 : String
  priorities : List String
deriving DecidableEq

/-- `toFixed(0)` on the nonnegative scores (round to nearest integer). -/
def fixed0 (q : ℚ) : String := natStr (jsRound q).toNat

/-- `parts.join(" ")`. -/
def joinSpace : List String → String
  | [] => ""
  | [x] => x
  | x :: xs => x ++ " " ++ joinSpace xs

/-- `generateTrinityAssessment`; in `analyze` all five component scores
are present, so the truthiness guards on the component objects are taken. -/
def generateTrinityAssessment (flow char pacing theme cont : ComponentScore)
    (gaps : List Gap) : TrinityAssessment :=
  let miaParts :=
    (["Structure is " ++ fixed0 flow.score ++ "% sound."] ++
      (if flow.issues ≠ [] then
        ["Key structural gap: " ++ flow.issues.headD ""] else [])) ++
    (if pacing.score < 70 then
      ["Pacing needs attention (" ++ fixed0 pacing.score ++ "%)."] ++
        (if pacing.suggestions ≠ [] then [pacing.suggestions.headD ""] else [])
     else []) ++
    (if cont.score < 80 then
      ["Continuity has " ++ natStr cont.issues.length ++ " issues to address."]
     else [])
  let mia := if miaParts ≠ [] then joinSpace miaParts else "Structure analysis unavailable."
  let mietteParts :=
    (if char.score ≥ 80 then ["Character arcs are resonating well."]
     else ["Character consistency is " ++ fixed0 char.score ++ "%."] ++
       (if char.issues ≠ [] then ["The emotional gap: " ++ char.issues.headD ""] else [])) ++
    (if theme.score ≥ 70 then ["Themes are landing with emotional weight."]
     else ["Themes need stronger emotional anchoring."]) ++
    (if (flow.issues.filter (fun i => occursIn "Jarring" i)) ≠ [] then
      ["Emotional transitions feel abrupt in places."] else [])
  let miette :=
    if mietteParts ≠ [] then joinSpace mietteParts else "Emotional analysis unavailable."
  let sensoryGaps := gaps.filter (fun g => g.gapType = GapType.sensory)
  let ava8Parts :=
    (if sensoryGaps ≠ [] then
      ["Found " ++ natStr sensoryGaps.length ++ " sensory gaps to address."] else []) ++
    (if pacing.score ≥ 70 then ["Atmospheric rhythm feels balanced."]
     else ["Atmosphere could use more grounding moments."]) ++
    (if pacing.issues.any (fun i => occursIn "consecutive high-tension" i) then
      ["The dense tension sections may benefit from visual breathing room."] else [])
  let ava8 :=
    if ava8Parts ≠ [] then joinSpace ava8Parts else "Atmospheric analysis unavailable."
  let criticalGaps := gaps.filter (fun g => g.severity = GapSeverity.critical)
  let moderateGaps := gaps.filter (fun g => g.severity = GapSeverity.moderate)
  let priorities :=
    if criticalGaps ≠ [] then (criticalGaps.take 3).map (·.description)
    else if moderateGaps ≠ [] then (moderateGaps.take 3).map (·.description)
    else []
  let priorities :=
    if priorities = [] then ["Minor polish items only - narrative is coherent"]
    else priorities
  { mia := mia, miette := miette, ava8 := ava8, priorities := priorities }

/-- `calculateOverallScore`: weighted mean with weights
`[1.2, 1.2, 1.0, 1.0, 0.8]` in component order, normalized by the weights
actually present; `50.0` when no scorer ran. -/
def calculateOverallScore (scores : List ℚ) : ℚ :=
  let weights : List ℚ := [12/10, 12/10, 1, 1, 8/10]
  if scores.length > 0 then
    ((List.zip scores weights).foldl (fun acc p => acc + p.1 * p.2) 0) /
      ((weights.take scores.length).foldl (· + ·) 0)
  else 50

structure CoherenceResult where
  overall : ℚ
  narrativeFlow : ComponentScore
  characterConsistency : ComponentScore
  pacing : ComponentScore
  themeSaturation : ComponentScore
  continuity : ComponentScore
  gaps : List Gap
  trinity : TrinityAssessment
deriving DecidableEq

/-- `NarrativeCoherenceEngine.analyze`: a pure function of the inputs and
the engine's gap-id counter (the only instance state it touches); returns
the result together with the counter's new value. -/
def analyze (beats : List StoryBeat) (characters : List CharacterState)
    (themes : List ThematicThread) (gapCounter : ℕ) : CoherenceResult × ℕ :=
  let flow := analyzeNarrativeFlow beats
  let char := analyzeCharacterConsistency beats characters
  let pacing := analyzePacing beats
  let theme := analyzeThemeSaturation beats themes
  let cont := analyzeContinuity beats
  let overall := calculateOverallScore
    [flow.score, char.score, pacing.score, theme.score, cont.score]
  let gapsAndCounter := identifyGaps gapCounter
    (some flow) (some char) (some pacing) (some theme) (some cont)
  let trinity := generateTrinityAssessment flow char pacing theme cont gapsAndCounter.1
  ({ overall := overall, narrativeFlow := flow, characterConsistency := char,
     pacing := pacing, themeSaturation := theme, continuity := cont,
     gaps := gapsAndCounter.1, trinity := trinity }, gapsAndCounter.2)

/-! ### Facts about the scorers' issue messages -/

theorem strData_append (a b : String) : (a ++ b).toList = a.toList ++ b.toList := by
  cases a
  cases b
  rfl

/-- The characters a rendered sequence-number list can contain. -/
def numeralChars : List Char :=
  digitChars ++ ['-', ',', ' ']

theorem intToChars_chars (i : ℤ) : ∀ c ∈ intToChars i, c ∈ numeralChars := by
  intro c hc
  rw [intToChars] at hc
  split at hc
  · rcases List.mem_cons.mp hc with rfl | h
    · decide
    · exact List.mem_append_left _ (natToChars_chars _ c h)
  · exact List.mem_append_left _ (natToChars_chars _ c hc)

theorem seqJoin_chars : ∀ l : List ℤ, ∀ c ∈ seqJoin l, c ∈ numeralChars := by
  intro l
  induction l with
  | nil => intro c hc; simp [seqJoin] at hc
  | cons x rest ih =>
    cases rest with
    | nil =>
      intro c hc
      rw [seqJoin] at hc
      exact intToChars_chars x c hc
    | cons y rest' =>
      intro c hc
      rw [seqJoin] at hc
      rcases List.mem_append.mp hc with h | h
      · exact intToChars_chars x c h
      · rcases List.mem_cons.mp h with rfl | h'
        · decide
        · rcases List.mem_cons.mp h' with rfl | h''
          · decide
          · exact ih c h''

/-- A needle whose last character cannot appear in the rendered tail can
occur in `prefixStr ++ String.mk t` only inside `prefixStr`. -/
theorem occursIn_append_false {needle prefixStr : String} {t : List Char} {c : Char}
    (hlast : needle.toList.getLast? = some c)
    (hnp : occursInL needle.toList prefixStr.toList = false) (hct : c ∉ t) :
    occursIn needle (prefixStr ++ String.mk t) = false := by
  rw [occursIn]
  by_contra hcon
  rw [Bool.not_eq_false] at hcon
  rw [strData_append] at hcon
  have ht : (String.mk t).toList = t := rfl
  rw [ht] at hcon
  have := occursInL_append_right hlast hct hcon
  rw [hnp] at this
  exact Bool.false_ne_true this

/-- A needle occurring in `b` occurs in `a ++ b`. -/
theorem occursIn_append_of_right {needle b : String} (h : occursIn needle b = true)
    (a : String) : occursIn needle (a ++ b) = true := by
  rw [occursIn, strData_append]
  rw [occursIn, occursInL_iff] at h
  obtain ⟨s, t, hst⟩ := h
  rw [occursInL_iff]
  exact ⟨a.toList ++ s, t, by rw [hst]; simp [List.append_assoc]⟩

theorem occ_notInOrder_missing (m : List ℤ) :
    occursIn "not in order" (missingMsg m) = false := by
  rw [missingMsg]
  apply occursIn_append_false (c := 'r')
  · decide
  · decide
  · intro hmem
    have := seqJoin_chars (jsSortNums m) 'r' hmem
    revert this
    decide

theorem occ_dup_missing (m : List ℤ) :
    occursIn "Duplicate" (missingMsg m) = false := by
  rw [missingMsg]
  apply occursIn_append_false (c := 'e')
  · decide
  · decide
  · intro hmem
    have := seqJoin_chars (jsSortNums m) 'e' hmem
    revert this
    decide

theorem occ_missing_missing (m : List ℤ) :
    occursIn "Missing" (missingMsg m) = true := by
  rw [missingMsg, occursIn, strData_append, occursInL_iff]
  refine ⟨[], " beat sequences: ".toList ++ (String.mk (seqJoin (jsSortNums m))).toList, ?_⟩
  rw [List.nil_append, ← List.append_assoc]
  congr 1

theorem occ_setup_jarring (j : ℕ) :
    occursIn "without proper setup"
      ("Jarring emotional transition at Beat " ++ natStr j) = false := by
  apply occursIn_append_false (c := 'p')
  · decide
  · decide
  · intro hmem
    have := natToChars_chars j 'p' hmem
    revert this
    decide

theorem occ_setup_setup (j : ℕ) :
    occursIn "without proper setup"
      ("Beat " ++ natStr j ++ " escalates without proper setup") = true := by
  apply occursIn_append_of_right
  decide

theorem occ_tension_run (j : ℕ) :
    occursIn "consecutive high-tension"
      ("Found " ++ natStr j ++ " consecutive high-tension beats") = true := by
  apply occursIn_append_of_right
  decide

/-! ### Sorting facts -/

theorem insertionSort_eq_iff_sorted (l : List ℤ) :
    l = List.insertionSort (· ≤ ·) l ↔ List.Sorted (· ≤ ·) l := by
  constructor
  · intro h
    rw [h]
    exact List.sorted_insertionSort _ l
  · intro h
    exact (List.Sorted.insertionSort_eq h).symm

theorem dedup_length_eq_iff_nodup (l : List ℤ) :
    l.length = l.dedup.length ↔ l.Nodup := by
  constructor
  · intro h
    have hsub := List.dedup_sublist l
    have : l.dedup = l := hsub.eq_of_length h.symm
    rw [← this]
    exact List.nodup_dedup l
  · intro h
    rw [List.dedup_eq_self.mpr h]

instance : IsTotal Gap gapLe :=
  ⟨fun a b => Nat.le_total (severityOrder a.severity) (severityOrder b.severity)⟩

instance : IsTrans Gap gapLe := ⟨fun _ _ _ => Nat.le_trans⟩

theorem severityOrder_inj {a b : GapSeverity} (h : severityOrder a = severityOrder b) :
    a = b := by
  cases a <;> cases b <;> first | rfl | (exfalso; revert h; decide)

/-- Stable insert: the per-severity fragments are preserved. -/
theorem filter_orderedInsert (x : Gap) (l : List Gap) (s : GapSeverity) :
    (List.orderedInsert gapLe x l).filter (fun g => g.severity == s) =
      if x.severity = s then x :: l.filter (fun g => g.severity == s)
      else l.filter (fun g => g.severity == s) := by
  induction l with
  | nil =>
    rw [List.orderedInsert_nil]
    by_cases hxs : x.severity = s
    · simp [List.filter_cons, hxs]
    · simp [List.filter_cons, hxs]
  | cons b l ih =>
    rw [List.orderedInsert]
    split
    · rw [List.filter_cons, List.filter_cons]
      by_cases hxs : x.severity = s
      · simp [hxs]
      · simp [hxs]
    · rename_i hgt
      have hblt : severityOrder b.severity < severityOrder x.severity := by
        rw [gapLe] at hgt
        omega
      rw [List.filter_cons, List.filter_cons, ih]
      by_cases hxs : x.severity = s
      · have hbs : (b.severity == s) = false := by
          simp only [beq_eq_false_iff_ne, ne_eq]
          intro hb
          rw [hb, hxs] at hblt
          omega
        simp [hbs, hxs]
      · simp [hxs]

theorem filter_sortGaps (l : List Gap) (s : GapSeverity) :
    (sortGaps l).filter (fun g => g.severity == s) =
      l.filter (fun g => g.severity == s) := by
  induction l with
  | nil => rfl
  | cons x l ih =>
    rw [sortGaps, List.insertionSort, filter_orderedInsert]
    rw [show List.insertionSort gapLe l = sortGaps l from rfl, ih, List.filter_cons]
    by_cases hxs : x.severity = s
    · simp [hxs]
    · simp [hxs]

theorem sortGaps_sorted (l : List Gap) : List.Sorted gapLe (sortGaps l) :=
  List.sorted_insertionSort gapLe l

theorem sortGaps_perm (l : List Gap) : List.Perm (sortGaps l) l :=
  List.perm_insertionSort gapLe l

/-! ## Claim theorems -/

/-- Beat builder for concrete scenarios (remaining fields at the
`createStoryBeat` defaults). -/
def beatWith (id : String) (sequence : ℤ) (nf tone : String) : StoryBeat :=
  { id := id, sequence := sequence, content := "", narrativeFunction := nf,
    act := 1, leadUniverse := Universe.story_engine, emotionalTone := tone,
    thematicTags := [], characterId := none, characterArcImpact := 0,
    source := "generator", sourceEventId := none, timestamp := "",
    enrichmentsApplied := [], qualityScore := 1/2 }

/-- C1 (amended): for every beat list with at least 3 beats the Pacing
scorer subtracts the run penalty `min(20, 5 × maxRun)` unconditionally
(also when the longest high-tension run is 3 or less), while the
consecutive-high-tension issue is flagged exactly when that run exceeds 3;
the score is `clamp(85 − climax penalty − min(20, 5 × maxRun), 0, 100)`. -/
theorem pacing_run_penalty_always (beats : List StoryBeat) (h3 : 3 ≤ beats.length) :
    (analyzePacing beats).score =
      clamp100 (85 - pacingClimaxPenalty beats -
        jsMin 20 ((pacingMaxRun beats : ℚ) * 5)) ∧
    ((analyzePacing beats).issues.any (fun i => occursIn "consecutive high-tension" i) =
        true ↔ 3 < pacingMaxRun beats) := by
  have hlen : ¬ beats.length < 3 := by omega
  simp only [analyzePacing, if_neg hlen]
  refine ⟨trivial, ?_⟩
  rw [List.any_append]
  cases hcp : (climaxPositions (pacingFunctions beats)).getLast? with
  | none =>
    by_cases hmr : pacingMaxRun beats > 3 <;>
      simp [hmr, occ_tension_run,
        show occursIn "consecutive high-tension" "No climax beat identified" = false
          from by decide]
  | some last =>
    by_cases hlt : (last : ℚ) < (beats.length : ℚ) * (1/2) <;>
      by_cases hmr : pacingMaxRun beats > 3 <;>
        simp [hlt, hmr, occ_tension_run,
          show occursIn "consecutive high-tension"
            "Climax occurs too early in the narrative" = false from by decide]

def pacingCexBeats : List StoryBeat :=
  [beatWith "b1" 1 "inciting_incident" "neutral",
   beatWith "b2" 2 "rising_action" "neutral",
   beatWith "b3" 3 "climax" "neutral"]

/-- C1 counterexample: three beats `[inciting_incident, rising_action,
climax]` have a longest high-tension run of 1 (≤ 3) and no climax penalty,
yet the pacing score is 80, not the 85 the claim predicts — the run
penalty `5 × 1` is subtracted even though the run does not exceed 3. -/
theorem pacing_run_penalty_claim_cex :
    3 ≤ pacingCexBeats.length ∧
    pacingMaxRun pacingCexBeats ≤ 3 ∧
    pacingClimaxPenalty pacingCexBeats = 0 ∧
    (analyzePacing pacingCexBeats).score = 80 ∧
    (analyzePacing pacingCexBeats).score ≠
      clamp100 (85 - pacingClimaxPenalty pacingCexBeats) := by
  have hcp : climaxPositions (pacingFunctions pacingCexBeats) = [2] := by decide
  have hmr : pacingMaxRun pacingCexBeats = 1 := by decide
  have hpen : pacingClimaxPenalty pacingCexBeats = 0 := by
    rw [pacingClimaxPenalty, hcp]
    rw [show ([2] : List ℕ).getLast? = some 2 from rfl,
      show pacingCexBeats.length = 3 from rfl]
    norm_num
  have hscore : (analyzePacing pacingCexBeats).score = 80 := by
    simp only [analyzePacing,
      if_neg (by decide : ¬ pacingCexBeats.length < 3)]
    rw [hpen, hmr]
    norm_num [clamp100_eq, jsMin_eq]
  refine ⟨by decide, by rw [hmr]; omega, hpen, hscore, ?_⟩
  rw [hscore, hpen]
  norm_num [clamp100_eq]

/-- C1 witness: the amended theorem instantiated at the three-beat list. -/
theorem pacing_run_penalty_always_witness :
    (analyzePacing pacingCexBeats).score =
      clamp100 (85 - pacingClimaxPenalty pacingCexBeats -
        jsMin 20 ((pacingMaxRun pacingCexBeats : ℚ) * 5)) ∧
    ((analyzePacing pacingCexBeats).issues.any
        (fun i => occursIn "consecutive high-tension" i) = true ↔
      3 < pacingMaxRun pacingCexBeats) :=
  pacing_run_penalty_always pacingCexBeats (by decide)

theorem flowScore_bounds (beats : List StoryBeat) :
    0 ≤ (analyzeNarrativeFlow beats).score ∧ (analyzeNarrativeFlow beats).score ≤ 100 := by
  rw [analyzeNarrativeFlow]
  split
  · norm_num
  · exact ⟨clamp100_nonneg _, clamp100_le _⟩

theorem charScore_bounds (beats : List StoryBeat) (chars : List CharacterState) :
    0 ≤ (analyzeCharacterConsistency beats chars).score ∧
      (analyzeCharacterConsistency beats chars).score ≤ 100 := by
  rw [analyzeCharacterConsistency]
  split
  · norm_num
  · exact ⟨clamp100_nonneg _, clamp100_le _⟩

theorem pacingScore_bounds (beats : List StoryBeat) :
    0 ≤ (analyzePacing beats).score ∧ (analyzePacing beats).score ≤ 100 := by
  rw [analyzePacing]
  split
  · norm_num
  · exact ⟨clamp100_nonneg _, clamp100_le _⟩

theorem themeScore_bounds (beats : List StoryBeat) (themes : List ThematicThread) :
    0 ≤ (analyzeThemeSaturation beats themes).score ∧
      (analyzeThemeSaturation beats themes).score ≤ 100 := by
  rw [analyzeThemeSaturation]
  split
  · norm_num
  · exact ⟨clamp100_nonneg _, clamp100_le _⟩

theorem contScore_bounds (beats : List StoryBeat) :
    0 ≤ (analyzeContinuity beats).score ∧ (analyzeContinuity beats).score ≤ 100 := by
  rw [analyzeContinuity]
  split
  · norm_num
  · exact ⟨clamp100_nonneg _, clamp100_le _⟩

theorem calculateCoherence_bounds (e c s : SynthPerspective) :
    0 ≤ calculateCoherence e c s ∧ calculateCoherence e c s ≤ 1 := by
  rw [calculateCoherence]
  exact jsRound2_mem_unit (clamp01_nonneg _) (clamp01_le_one _)

/-- C2 (amended): every lens confidence lies in `[0.5, 0.95]` (for the
Ceremony lens the lower bound is its keyword-path base constant 0.5, not
its 0.6 no-match fallback, which its match path can undershoot); every
component score lies in `[0, 100]`; every synthesizer coherence value lies
in `[0, 1]`. -/
theorem confidence_and_score_bounds :
    (∀ content : String, 1/2 ≤ (analyzeEngineerPerspective content).2 ∧
      (analyzeEngineerPerspective content).2 ≤ 19/20) ∧
    (∀ (content : String) (contributors : List String),
      1/2 ≤ (analyzeCeremonyPerspective content contributors).2 ∧
        (analyzeCeremonyPerspective content contributors).2 ≤ 19/20) ∧
    (∀ content : String, 1/2 ≤ (analyzeStoryEnginePerspective content).2 ∧
      (analyzeStoryEnginePerspective content).2 ≤ 19/20) ∧
    (∀ beats : List StoryBeat,
      0 ≤ (analyzeNarrativeFlow beats).score ∧ (analyzeNarrativeFlow beats).score ≤ 100) ∧
    (∀ (beats : List StoryBeat) (chars : List CharacterState),
      0 ≤ (analyzeCharacterConsistency beats chars).score ∧
        (analyzeCharacterConsistency beats chars).score ≤ 100) ∧
    (∀ beats : List StoryBeat,
      0 ≤ (analyzePacing beats).score ∧ (analyzePacing beats).score ≤ 100) ∧
    (∀ (beats : List StoryBeat) (themes : List ThematicThread),
      0 ≤ (analyzeThemeSaturation beats themes).score ∧
        (analyzeThemeSaturation beats themes).score ≤ 100) ∧
    (∀ beats : List StoryBeat,
      0 ≤ (analyzeContinuity beats).score ∧ (analyzeContinuity beats).score ≤ 100) ∧
    (∀ e c s : SynthPerspective,
      0 ≤ calculateCoherence e c s ∧ calculateCoherence e c s ≤ 1) :=
  ⟨analyzeEngineer_conf_bounds, analyzeCeremony_conf_bounds,
   analyzeStoryEngine_conf_bounds, flowScore_bounds, charScore_bounds,
   pacingScore_bounds, themeScore_bounds, contScore_bounds,
   calculateCoherence_bounds⟩

/-- C2 counterexample: on content `"we"` with a single contributor the
Ceremony lens matches `co_creation` with keyword score `1/6` and produces
confidence `0.5 + (1/6)·0.4 = 17/30 ≈ 0.567`, which is below the `0.6`
lower bound the claim asserts for the Ceremony lens. -/
theorem ceremony_confidence_claim_cex :
    (analyzeCeremonyPerspective "we" ["unknown"]).2 = 17/30 ∧
    ¬ ((3 : ℚ)/5 ≤ (analyzeCeremonyPerspective "we" ["unknown"]).2) := by
  have hval : (analyzeCeremonyPerspective "we" ["unknown"]).2 = 17/30 := by
    simp only [analyzeCeremonyPerspective, ceremonyScores_we]
    norm_num [pickBest, jsMin]
  exact ⟨hval, by rw [hval]; norm_num⟩

/-- C3: `synthesizePerspectives` fails with the missing-perspective error
iff at least one of the three inputs is absent; on success the lead
universe is one of the three universes. -/
theorem synthesize_missing_iff (e c s : Option SynthPerspective) :
    ((∃ msg, synthesizePerspectives e c s = Except.error msg) ↔
      (e = none ∨ c = none ∨ s = none)) ∧
    (∀ r, synthesizePerspectives e c s = Except.ok r →
      r.leadUniverse = Universe.engineer ∨ r.leadUniverse = Universe.ceremony ∨
        r.leadUniverse = Universe.story_engine) := by
  constructor
  · cases e <;> cases c <;> cases s <;> simp [synthesizePerspectives]
  · intro r _
    cases h2 : r.leadUniverse
    · exact Or.inl rfl
    · exact Or.inr (Or.inl rfl)
    · exact Or.inr (Or.inr rfl)

def samplePerspective : SynthPerspective :=
  { intent := "maintenance", confidence := 1/2 }

/-- C3 witness: the theorem instantiated on an absent input and on three
present perspectives. -/
theorem synthesize_missing_iff_witness :
    (∃ msg, synthesizePerspectives none (some samplePerspective)
      (some samplePerspective) = Except.error msg) ∧
    ((synthesizePerspectives (some samplePerspective) (some samplePerspective)
        (some samplePerspective)).isOk = true →
      True) ∧
    ((⟨determineLeadUniverse samplePerspective samplePerspective samplePerspective,
        calculateCoherence samplePerspective samplePerspective samplePerspective⟩ :
          SynthResult).leadUniverse = Universe.engineer ∨
      (⟨determineLeadUniverse samplePerspective samplePerspective samplePerspective,
        calculateCoherence samplePerspective samplePerspective samplePerspective⟩ :
          SynthResult).leadUniverse = Universe.ceremony ∨
      (⟨determineLeadUniverse samplePerspective samplePerspective samplePerspective,
        calculateCoherence samplePerspective samplePerspective samplePerspective⟩ :
          SynthResult).leadUniverse = Universe.story_engine) := by
  refine ⟨?_, fun _ => trivial, ?_⟩
  · exact (synthesize_missing_iff none (some samplePerspective)
      (some samplePerspective)).1.mpr (Or.inl rfl)
  · exact (synthesize_missing_iff (some samplePerspective) (some samplePerspective)
      (some samplePerspective)).2 _ rfl

/-- C8: with all three perspectives present, the synthesizer succeeds and
its coherence score equals the specification's formula (clamped mean plus
alignment bonus minus spread penalty, rounded to two decimals). -/
theorem coherence_refines_spec (e c s : SynthPerspective) :
    synthesizePerspectives (some e) (some c) (some s) =
      Except.ok ⟨determineLeadUniverse e c s, coherenceSpecFormula e c s⟩ := by
  rw [← calculateCoherence_eq_spec]
  rfl

theorem occ_order_order :
    occursIn "not in order" "Beat sequences are not in order" = true := by decide

theorem occ_order_dupmsg :
    occursIn "not in order" "Duplicate beat sequence numbers found" = false := by decide

theorem occ_dup_ordermsg :
    occursIn "Duplicate" "Beat sequences are not in order" = false := by decide

theorem occ_dup_dupmsg :
    occursIn "Duplicate" "Duplicate beat sequence numbers found" = true := by decide

theorem occ_missing_ordermsg :
    occursIn "Missing" "Beat sequences are not in order" = false := by decide

theorem occ_missing_dupmsg :
    occursIn "Missing" "Duplicate beat sequence numbers found" = false := by decide

def contBeats312 : List StoryBeat :=
  [beatWith "b1" 3 "beat" "neutral",
   beatWith "b2" 1 "beat" "neutral",
   beatWith "b3" 2 "beat" "neutral"]

/-- C4: the Continuity scorer returns the 70-score default with a generic
issue below 2 beats; otherwise its score is 90 minus 20 for an
out-of-order sequence list (flagged "not in order"), minus 15 for a
duplicated sequence value, minus a flat 5 when 1–3 values of
`[1, maxSequence]` are missing, clamped to `[0,100]`; more than 3 missing
values produce no missing-sequence issue; the order check is exactly
non-decreasingness; and on sequences `[3,1,2]` the score is below 90 with
a "not in order" issue. -/
theorem continuity_spec (beats : List StoryBeat) :
    (beats.length < 2 → analyzeContinuity beats =
      { score := 70, status := "good",
        issues := ["Too few beats for continuity analysis"], suggestions := [] }) ∧
    (2 ≤ beats.length →
      ((analyzeContinuity beats).score = clamp100 (90 -
        (if beats.map (·.sequence) ≠
            List.insertionSort (· ≤ ·) (beats.map (·.sequence)) then (20 : ℚ) else 0) -
        (if ¬ (beats.map (·.sequence)).Nodup then (15 : ℚ) else 0) -
        (if 0 < (missingSeqs (beats.map (·.sequence))).length ∧
            (missingSeqs (beats.map (·.sequence))).length ≤ 3 then (5 : ℚ) else 0))) ∧
      (beats.map (·.sequence) = List.insertionSort (· ≤ ·) (beats.map (·.sequence)) ↔
        List.Sorted (· ≤ ·) (beats.map (·.sequence))) ∧
      (beats.map (·.sequence) ≠ List.insertionSort (· ≤ ·) (beats.map (·.sequence)) →
        (analyzeContinuity beats).issues.any (fun i => occursIn "not in order" i) = true) ∧
      (3 < (missingSeqs (beats.map (·.sequence))).length →
        (analyzeContinuity beats).issues.any (fun i => occursIn "Missing" i) = false)) ∧
    ((analyzeContinuity contBeats312).score < 90 ∧
      (analyzeContinuity contBeats312).issues.any (fun i => occursIn "not in order" i) =
        true) := by
  have hcadence : ∀ l : List ℤ, (l.length ≠ l.dedup.length) ↔ ¬ l.Nodup :=
    fun l => not_congr (dedup_length_eq_iff_nodup l)
  refine ⟨?_, ?_, ?_, ?_⟩
  · intro hlt
    rw [analyzeContinuity, if_pos hlt]
    rfl
  · intro h2
    have hlen : ¬ beats.length < 2 := by omega
    refine ⟨?_, insertionSort_eq_iff_sorted _, ?_, ?_⟩
    · simp only [analyzeContinuity, if_neg hlen]
      have hiff := hcadence (beats.map (·.sequence))
      have hIf15 : (if ¬ (beats.map (·.sequence)).Nodup then (15 : ℚ) else 0) =
          (if (beats.map (·.sequence)).length ≠
            (beats.map (·.sequence)).dedup.length then (15 : ℚ) else 0) := by
        by_cases hd : (beats.map (·.sequence)).length ≠
            (beats.map (·.sequence)).dedup.length
        · rw [if_pos hd, if_pos (hiff.mp hd)]
        · rw [if_neg hd, if_neg (fun hc => hd (hiff.mpr hc))]
      rw [hIf15]
      by_cases ho : beats.map (·.sequence) ≠
          List.insertionSort (· ≤ ·) (beats.map (·.sequence)) <;>
        by_cases hd : beats.length = (beats.map (·.sequence)).dedup.length <;>
          by_cases hm : 0 < (missingSeqs (beats.map (·.sequence))).length ∧
              (missingSeqs (beats.map (·.sequence))).length ≤ 3 <;>
            simp [ho, hd, hm, List.filter_append, occ_order_order, occ_order_dupmsg,
              occ_notInOrder_missing, occ_dup_ordermsg, occ_dup_dupmsg, occ_dup_missing,
              occ_missing_ordermsg, occ_missing_dupmsg, occ_missing_missing]
    · intro ho
      simp [analyzeContinuity, if_neg hlen, ho, occ_order_order]
    · intro h3
      have hm : ¬ (0 < (missingSeqs (beats.map (·.sequence))).length ∧
          (missingSeqs (beats.map (·.sequence))).length ≤ 3) := by omega
      simp only [analyzeContinuity, if_neg hlen]
      by_cases ho : beats.map (·.sequence) ≠
          List.insertionSort (· ≤ ·) (beats.map (·.sequence)) <;>
        by_cases hd : (beats.map (·.sequence)).length ≠
            (beats.map (·.sequence)).dedup.length <;>
          simp [ho, hd, hm, List.any_append, occ_missing_ordermsg, occ_missing_dupmsg]
  · have hA : contBeats312.map (·.sequence) ≠
        List.insertionSort (· ≤ ·) (contBeats312.map (·.sequence)) := by decide
    have hB : ¬ ((contBeats312.map (·.sequence)).length ≠
        (contBeats312.map (·.sequence)).dedup.length) := by decide
    have hC : ¬ (0 < (missingSeqs (contBeats312.map (·.sequence))).length ∧
        (missingSeqs (contBeats312.map (·.sequence))).length ≤ 3) := by decide
    simp only [analyzeContinuity, if_neg (by decide : ¬ contBeats312.length < 2),
      if_pos hA, if_neg hB, if_neg hC]
    simp [List.filter_append, occ_order_order, occ_dup_ordermsg, occ_missing_ordermsg]
    norm_num [clamp100_eq]
  · have hA : contBeats312.map (·.sequence) ≠
        List.insertionSort (· ≤ ·) (contBeats312.map (·.sequence)) := by decide
    simp only [analyzeContinuity, if_neg (by decide : ¬ contBeats312.length < 2),
      if_pos hA]
    simp [List.any_append, List.any_cons, occ_order_order]

/-- C4 witness: the theorem instantiated on a one-beat list (default
branch) and the `[3,1,2]` list (score formula). -/
theorem continuity_spec_witness :
    analyzeContinuity [beatWith "b1" 1 "beat" "neutral"] =
      { score := 70, status := "good",
        issues := ["Too few beats for continuity analysis"], suggestions := [] } ∧
    (analyzeContinuity contBeats312).score = clamp100 (90 -
      (if contBeats312.map (·.sequence) ≠
          List.insertionSort (· ≤ ·) (contBeats312.map (·.sequence)) then (20 : ℚ) else 0) -
      (if ¬ (contBeats312.map (·.sequence)).Nodup then (15 : ℚ) else 0) -
      (if 0 < (missingSeqs (contBeats312.map (·.sequence))).length ∧
          (missingSeqs (contBeats312.map (·.sequence))).length ≤ 3 then (5 : ℚ) else 0)) :=
  ⟨(continuity_spec [beatWith "b1" 1 "beat" "neutral"]).1 (by decide),
   ((continuity_spec contBeats312).2.1 (by decide)).1⟩

/-- The jarring-transition walk returns no transitions when no adjacent
tone pair (including the carried-in previous tone) matches a jarring
pair. -/
theorem flowJarring_eq_zero :
    ∀ (beats : List StoryBeat) (prev : Option String) (i : ℕ),
      (match prev with
       | none => List.Chain' (fun a b => jarringCount a b = 0)
          (beats.map (·.emotionalTone))
       | some pt => List.Chain' (fun a b => jarringCount a b = 0)
          (pt :: beats.map (·.emotionalTone))) →
      flowJarring prev beats i = (0, []) := by
  intro beats
  induction beats with
  | nil =>
    intro prev i _
    cases prev <;> rfl
  | cons b rest ih =>
    intro prev i hch
    have htail : flowJarring (some b.emotionalTone) rest (i + 1) = (0, []) := by
      apply ih
      cases prev with
      | none =>
        simp only [List.map_cons] at hch
        exact hch
      | some pt =>
        simp only [List.map_cons] at hch
        exact hch.tail
    cases prev with
    | none =>
      simp only [flowJarring, htail]
    | some pt =>
      simp only [List.map_cons, List.chain'_cons] at hch
      simp only [flowJarring, htail]
      split
      · simp [hch.1]
      · rfl

def sixFunctions : List String :=
  ["inciting_incident", "rising_action", "turning_point", "crisis", "climax",
   "resolution"]

/-- C5: six beats with functions `[inciting_incident, rising_action,
turning_point, crisis, climax, resolution]` and no jarring adjacent tones
give a flow score of at least 70 (status "good") and a pacing score of at
least 70.  (The flow score is exactly 70: the walk flags "crisis" as
escalation without a prior setup-type beat, since none of the six
functions is in {setup, introduction, discovery}; pacing is 75: climax at
index 4 of 6 incurs no penalty and the crisis–climax run of 2 costs 10.) -/
theorem flow_pacing_good_scenario (beats : List StoryBeat)
    (hf : beats.map (·.narrativeFunction) = sixFunctions)
    (ht : List.Chain' (fun a b => jarringCount a b = 0)
      (beats.map (·.emotionalTone))) :
    70 ≤ (analyzeNarrativeFlow beats).score ∧
    (analyzeNarrativeFlow beats).status = "good" ∧
    70 ≤ (analyzePacing beats).score := by
  have h6 : beats.length = 6 := by
    have h := congrArg List.length hf
    simpa using h
  have hlen2 : ¬ beats.length < 2 := by omega
  have hjar : flowJarring none beats 0 = (0, []) := flowJarring_eq_zero beats none 0 ht
  have hsv : flowSetupViolation (beats.map (·.narrativeFunction)) 0 = some 3 := by
    rw [hf]
    decide
  have hflow : (analyzeNarrativeFlow beats).score = 70 := by
    simp only [analyzeNarrativeFlow, if_neg hlen2, hsv, hjar]
    simp [occ_setup_setup]
    norm_num [clamp100_eq]
  have hstatus : (analyzeNarrativeFlow beats).status =
      statusOf ((analyzeNarrativeFlow beats).score) := by
    rw [analyzeNarrativeFlow]
    split <;> rfl
  have hpf : pacingFunctions beats = sixFunctions := by
    show beats.map (fun b => strLower b.narrativeFunction) = _
    rw [show (fun (b : StoryBeat) => strLower b.narrativeFunction) =
      (strLower ∘ fun b : StoryBeat => b.narrativeFunction) from rfl]
    rw [← List.map_map, hf]
    decide
  have hmr : pacingMaxRun beats = 2 := by
    rw [pacingMaxRun, hpf]
    decide
  have hpen : pacingClimaxPenalty beats = 0 := by
    rw [pacingClimaxPenalty, hpf]
    rw [show climaxPositions sixFunctions = [4] from by decide]
    rw [show ([4] : List ℕ).getLast? = some 4 from rfl, h6]
    norm_num
  have hpac : (analyzePacing beats).score = 75 := by
    simp only [analyzePacing, if_neg (show ¬ beats.length < 3 by omega)]
    rw [hpen, hmr]
    norm_num [jsMin_eq, clamp100_eq]
  refine ⟨by rw [hflow], ?_, by rw [hpac]; norm_num⟩
  rw [hstatus, hflow]
  norm_num [statusOf]

def sixBeats : List StoryBeat :=
  [beatWith "b1" 1 "inciting_incident" "neutral",
   beatWith "b2" 2 "rising_action" "neutral",
   beatWith "b3" 3 "turning_point" "neutral",
   beatWith "b4" 4 "crisis" "neutral",
   beatWith "b5" 5 "climax" "neutral",
   beatWith "b6" 6 "resolution" "neutral"]

/-- C5 witness: the theorem instantiated on six concrete beats with
neutral tones. -/
theorem flow_pacing_good_scenario_witness :
    70 ≤ (analyzeNarrativeFlow sixBeats).score ∧
    (analyzeNarrativeFlow sixBeats).status = "good" ∧
    70 ≤ (analyzePacing sixBeats).score := by
  apply flow_pacing_good_scenario sixBeats (by decide)
  have h0 : jarringCount "neutral" "neutral" = 0 := by decide
  simp [sixBeats, beatWith, List.chain'_cons, h0]

/-- The component score an analysis state holds under a mapping key. -/
def componentLookup (flow char pacing theme cont : Option ComponentScore)
    (key : String) : Option ComponentScore :=
  ((componentMappings flow char pacing theme cont).find?
    (fun e => e.1 == key)).bind (·.2.2)

theorem severityOf_critical {st i : String}
    (h : severityOf st i = GapSeverity.critical) : st = "critical" := by
  rw [severityOf] at h
  split at h
  · assumption
  · split at h <;> exact absurd h (by decide)

theorem severityOf_moderate_iff {st i : String} (h : st ≠ "critical") :
    severityOf st i = GapSeverity.moderate ↔
      (occursIn "rarely" i || occursIn "disappears" i) = true := by
  rw [severityOf, if_neg h]
  split
  · rename_i hc
    simp [hc]
  · rename_i hc
    simp [hc]

theorem severityOf_minor_iff {st i : String} (h : st ≠ "critical") :
    severityOf st i = GapSeverity.minor ↔
      (occursIn "rarely" i || occursIn "disappears" i) = false := by
  rw [severityOf, if_neg h]
  split
  · rename_i hc
    simp [hc]
  · rename_i hc
    simp only [Bool.or_eq_true] at hc
    push_neg at hc
    simp [hc.1, hc.2]

theorem preGaps_sound {flow char pacing theme cont : Option ComponentScore}
    {p : String × GapType × String × String}
    (hp : p ∈ preGaps (componentMappings flow char pacing theme cont)) :
    ∃ c : ComponentScore,
      componentLookup flow char pacing theme cont p.1 = some c ∧
      p.2.2.1 = c.status ∧ p.2.2.2 ∈ c.issues := by
  rw [preGaps, componentMappings] at hp
  simp only [List.mem_flatMap, List.mem_cons, List.not_mem_nil, or_false] at hp
  obtain ⟨e, he, hpe⟩ := hp
  rcases he with rfl | rfl | rfl | rfl | rfl
  · cases hf : flow with
    | none => rw [hf] at hpe; simp at hpe
    | some c =>
      rw [hf] at hpe
      simp only [List.mem_map] at hpe
      obtain ⟨issue, hiss, rfl⟩ := hpe
      exact ⟨c, by simp [componentLookup, componentMappings, hf], rfl, hiss⟩
  · cases hf : char with
    | none => rw [hf] at hpe; simp at hpe
    | some c =>
      rw [hf] at hpe
      simp only [List.mem_map] at hpe
      obtain ⟨issue, hiss, rfl⟩ := hpe
      exact ⟨c, by simp [componentLookup, componentMappings, hf], rfl, hiss⟩
  · cases hf : pacing with
    | none => rw [hf] at hpe; simp at hpe
    | some c =>
      rw [hf] at hpe
      simp only [List.mem_map] at hpe
      obtain ⟨issue, hiss, rfl⟩ := hpe
      exact ⟨c, by simp [componentLookup, componentMappings, hf], rfl, hiss⟩
  · cases hf : theme with
    | none => rw [hf] at hpe; simp at hpe
    | some c =>
      rw [hf] at hpe
      simp only [List.mem_map] at hpe
      obtain ⟨issue, hiss, rfl⟩ := hpe
      exact ⟨c, by simp [componentLookup, componentMappings, hf], rfl, hiss⟩
  · cases hf : cont with
    | none => rw [hf] at hpe; simp at hpe
    | some c =>
      rw [hf] at hpe
      simp only [List.mem_map] at hpe
      obtain ⟨issue, hiss, rfl⟩ := hpe
      exact ⟨c, by simp [componentLookup, componentMappings, hf], rfl, hiss⟩

theorem mem_assignIds {g : Gap} :
    ∀ {n : ℕ} {l : List (String × GapType × String × String)},
      g ∈ assignIds n l → ∃ p ∈ l, ∃ m, g = mkGap m p := by
  intro n l
  induction l generalizing n with
  | nil => intro h; simp [assignIds] at h
  | cons p rest ih =>
    intro h
    rw [assignIds] at h
    rcases List.mem_cons.mp h with rfl | h'
    · exact ⟨p, List.mem_cons_self p rest, n + 1, rfl⟩
    · obtain ⟨q, hq, m, rfl⟩ := ih h'
      exact ⟨q, List.mem_cons_of_mem _ hq, m, rfl⟩

/-- C9: every gap's severity is critical only if its source component's
status was critical; for a gap from a non-critical component the severity
is moderate exactly when the issue text contains "rarely" or "disappears"
and minor otherwise; and the returned list is sorted with critical before
moderate before minor while preserving the emission order inside each
severity class. -/
theorem gap_severity_and_sort (flow char pacing theme cont : Option ComponentScore)
    (counter : ℕ) :
    (∀ g ∈ (identifyGaps counter flow char pacing theme cont).1,
      (g.severity = GapSeverity.critical →
        ∃ comp, componentLookup flow char pacing theme cont g.locationComponent =
          some comp ∧ comp.status = "critical") ∧
      (∀ comp, componentLookup flow char pacing theme cont g.locationComponent =
          some comp → comp.status ≠ "critical" →
        ((g.severity = GapSeverity.moderate ↔
          (occursIn "rarely" g.description || occursIn "disappears" g.description) =
            true) ∧
         (g.severity = GapSeverity.minor ↔
          (occursIn "rarely" g.description || occursIn "disappears" g.description) =
            false)))) ∧
    List.Sorted gapLe (identifyGaps counter flow char pacing theme cont).1 ∧
    (∀ s : GapSeverity,
      ((identifyGaps counter flow char pacing theme cont).1.filter
        (fun g => g.severity == s)) =
      ((assignIds counter
        (preGaps (componentMappings flow char pacing theme cont))).filter
        (fun g => g.severity == s))) := by
  refine ⟨?_, sortGaps_sorted _, fun s => filter_sortGaps _ s⟩
  intro g hg
  have hg' : g ∈ assignIds counter
      (preGaps (componentMappings flow char pacing theme cont)) :=
    (sortGaps_perm _).mem_iff.mp hg
  obtain ⟨p, hp, m, rfl⟩ := mem_assignIds hg'
  obtain ⟨c, hc, hst, hiss⟩ := preGaps_sound hp
  constructor
  · intro hcrit
    refine ⟨c, hc, ?_⟩
    rw [← hst]
    exact severityOf_critical hcrit
  · intro comp hcomp hncrit
    have hcc : comp = c := by
      have hloc : (mkGap m p).locationComponent = p.1 := rfl
      rw [hloc, hc] at hcomp
      exact (Option.some.inj hcomp).symm
    subst hcc
    have hstc : p.2.2.1 ≠ "critical" := by
      rw [hst]
      exact hncrit
    exact ⟨severityOf_moderate_iff hstc, severityOf_minor_iff hstc⟩

/-- Concrete components for the C9 witness: a critical Flow component and
a warning Theme component with a "rarely" issue. -/
def flowCompC9 : ComponentScore :=
  { score := 40, status := "critical",
    issues := ["Beat 1 escalates without proper setup"], suggestions := [] }

def themeCompC9 : ComponentScore :=
  { score := 60, status := "warning",
    issues := ["Theme 'unity' is important but appears rarely"], suggestions := [] }

def gapsC9 : List Gap × ℕ :=
  identifyGaps 0 (some flowCompC9) none none (some themeCompC9) none

/-- C9 witness: the theorem instantiated on the concrete components; the
flow gap is critical and traces to a critical component, the theme gap is
moderate by its "rarely" text, and the result is sorted. -/
theorem gap_severity_and_sort_witness :
    (∃ comp, componentLookup (some flowCompC9) none none (some themeCompC9) none
      "narrativeFlowScore" = some comp ∧ comp.status = "critical") ∧
    ((⟨"gap_" ++ natStr 2, GapType.thematic,
        severityOf "warning" "Theme 'unity' is important but appears rarely",
        "Theme 'unity' is important but appears rarely", "themeSaturationScore",
        RoutingTarget.structurist, false⟩ : Gap).severity = GapSeverity.moderate ↔
      (occursIn "rarely" "Theme 'unity' is important but appears rarely" ||
        occursIn "disappears" "Theme 'unity' is important but appears rarely") =
          true) ∧
    List.Sorted gapLe gapsC9.1 := by
  have h := gap_severity_and_sort (some flowCompC9) none none (some themeCompC9) none 0
  refine ⟨?_, ?_, h.2.1⟩
  · refine ((h.1 ⟨"gap_" ++ natStr 1, GapType.structural,
      severityOf "critical" "Beat 1 escalates without proper setup",
      "Beat 1 escalates without proper setup", "narrativeFlowScore",
      RoutingTarget.structurist, false⟩ ?_).1 ?_)
    · decide
    · decide
  · refine ((h.1 ⟨"gap_" ++ natStr 2, GapType.thematic,
      severityOf "warning" "Theme 'unity' is important but appears rarely",
      "Theme 'unity' is important but appears rarely", "themeSaturationScore",
      RoutingTarget.structurist, false⟩ ?_).2
        themeCompC9 ?_ ?_).1
    · decide
    · decide
    · decide

theorem assignIds_length :
    ∀ (n : ℕ) (l : List (String × GapType × String × String)),
      (assignIds n l).length = l.length := by
  intro n l
  induction l generalizing n with
  | nil => rfl
  | cons p rest ih =>
    rw [assignIds, List.length_cons, ih (n + 1), List.length_cons]

theorem assignIds_id_mem {g : Gap} :
    ∀ {n : ℕ} {l : List (String × GapType × String × String)},
      g ∈ assignIds n l → ∃ m, n < m ∧ g.id = "gap_" ++ natStr m := by
  intro n l
  induction l generalizing n with
  | nil => intro h; simp [assignIds] at h
  | cons p rest ih =>
    intro h
    rw [assignIds] at h
    rcases List.mem_cons.mp h with rfl | h'
    · exact ⟨n + 1, by omega, rfl⟩
    · obtain ⟨m, hm, hid⟩ := ih h'
      exact ⟨m, by omega, hid⟩

theorem assignIds_ids_nodup :
    ∀ (n : ℕ) (l : List (String × GapType × String × String)),
      ((assignIds n l).map (·.id)).Nodup := by
  intro n l
  induction l generalizing n with
  | nil => simp [assignIds]
  | cons p rest ih =>
    rw [assignIds]
    simp only [List.map_cons, List.nodup_cons]
    refine ⟨?_, ih (n + 1)⟩
    intro hmem
    rw [List.mem_map] at hmem
    obtain ⟨g, hg, hid⟩ := hmem
    obtain ⟨m, hm, hgid⟩ := assignIds_id_mem hg
    rw [hgid] at hid
    have hmk : (mkGap (n + 1) p).id = "gap_" ++ natStr (n + 1) := rfl
    rw [hmk] at hid
    have hnat : natToChars m = natToChars (n + 1) := by
      have h2 := congrArg String.toList hid
      rw [strData_append, strData_append] at h2
      exact List.append_cancel_left h2
    have : m = n + 1 := natToChars_inj hnat
    omega

/-- C10: `analyze` is embedded as a pure function of the beat, character
and theme lists plus the engine's gap-id counter — the only engine state
it touches; the gap ids in one result are pairwise distinct, and the
counter grows by exactly the number of gaps emitted. -/
theorem analyze_pure_and_gap_ids_distinct (beats : List StoryBeat)
    (characters : List CharacterState) (themes : List ThematicThread)
    (counter : ℕ) :
    ((analyze beats characters themes counter).1.gaps.map (·.id)).Nodup ∧
    (analyze beats characters themes counter).2 =
      counter + (analyze beats characters themes counter).1.gaps.length ∧
    counter ≤ (analyze beats characters themes counter).2 := by
  have hperm : List.Perm
      ((analyze beats characters themes counter).1.gaps)
      (assignIds counter (preGaps (componentMappings
        (some (analyzeNarrativeFlow beats))
        (some (analyzeCharacterConsistency beats characters))
        (some (analyzePacing beats))
        (some (analyzeThemeSaturation beats themes))
        (some (analyzeContinuity beats))))) := by
    simp only [analyze, identifyGaps]
    exact sortGaps_perm _
  refine ⟨?_, ?_, ?_⟩
  · have hnodup := assignIds_ids_nodup counter (preGaps (componentMappings
      (some (analyzeNarrativeFlow beats))
      (some (analyzeCharacterConsistency beats characters))
      (some (analyzePacing beats))
      (some (analyzeThemeSaturation beats themes))
      (some (analyzeContinuity beats))))
    exact ((hperm.map (·.id)).nodup_iff).mpr hnodup
  · simp only [analyze, identifyGaps]
    rw [(sortGaps_perm _).length_eq, assignIds_length]
  · have hlen := hperm.length_eq
    rw [assignIds_length] at hlen
    simp only [analyze, identifyGaps]
    omega

end AvaNI
